import Mathlib

/-!
Verification of the partition-table plugin: a shallow embedding of the
MBR decoder (src/mbr.rs), the GPT decoder (src/gpt.rs) and the scheme
selector (src/lib.rs, Partitions::from_file), together with theorems
settling the specification claims.

Byte sources are modelled as `List Nat` (each element one byte, < 256 on
real inputs); machine integers are `Nat` (all values read from genuine
byte lists are below their width bound, so no wrap-around arises in the
modelled code paths).  Fallible Rust code returning `anyhow::Result` is
modelled with `Except String` (the reason string of the
`RustructError::Unknown` value) or with `RRes`, which additionally
distinguishes I/O errors of the byte source and Rust panics
(out-of-bounds slicing), so that totality claims are statable.
-/

set_option maxRecDepth 40000

/-- Read one byte of a byte list (Rust `l[i]` on an in-bounds index). -/
def byte (l : List Nat) (i : Nat) : Nat := l.getD i 0

/-- Little-endian 16-bit read (`LittleEndian::read_u16`). -/
def readU16 (l : List Nat) (i : Nat) : Nat := byte l i + 0x100 * byte l (i + 1)

/-- Little-endian 32-bit read (`LittleEndian::read_u32`). -/
def readU32 (l : List Nat) (i : Nat) : Nat :=
  byte l i + 0x100 * byte l (i + 1) + 0x10000 * byte l (i + 2) + 0x1000000 * byte l (i + 3)

/-- Little-endian 64-bit read (`LittleEndian::read_u64`). -/
def readU64 (l : List Nat) (i : Nat) : Nat :=
  readU32 l i + 0x100000000 * readU32 l (i + 4)

/-- `all_zero` from src/gpt.rs: every byte of the slice is zero. -/
def all_zero (val : List Nat) : Bool := val.all (fun x => 0 == x)

/-- Lowercase hexadecimal rendering of a number (Rust formatter). -/
def hexStr (n : Nat) : String := String.mk (Nat.toDigits 16 n)

/-- One bit iteration of the reflected CRC-32 (IEEE 802.3, polynomial
0xEDB88320), as computed by `crc::crc32::checksum_ieee`. -/
def crcRound (s : Nat) : Nat :=
  if s % 2 = 1 then (s / 2) ^^^ 0xEDB88320 else s / 2

/-- CRC-32 state update for one input byte (xor in, then 8 bit rounds). -/
def crcByteStep (s b : Nat) : Nat :=
  crcRound (crcRound (crcRound (crcRound (crcRound (crcRound (crcRound (crcRound (s ^^^ b))))))))

/-- CRC-32 state update over a byte list. -/
def crcUpdate (s : Nat) (l : List Nat) : Nat := l.foldl crcByteStep s

/-- `checksum_ieee` from the `crc` crate: init 0xFFFFFFFF, final xor 0xFFFFFFFF. -/
def checksum_ieee (l : List Nat) : Nat := crcUpdate 0xFFFFFFFF l ^^^ 0xFFFFFFFF

/-- UTF-16 decoding of a list of 16-bit code units (`String::from_utf16`):
`none` on an unpaired surrogate, otherwise the decoded characters. -/
def utf16DecodeChars : List Nat → Option (List Char)
  | [] => some []
  | u :: rest =>
    if u < 0xD800 || 0xE000 ≤ u then
      (utf16DecodeChars rest).map (fun cs => Char.ofNat u :: cs)
    else if u < 0xDC00 then
      match rest with
      | [] => none
      | v :: rest2 =>
        if 0xDC00 ≤ v && v < 0xE000 then
          (utf16DecodeChars rest2).map
            (fun cs => Char.ofNat (0x10000 + (u - 0xD800) * 0x400 + (v - 0xDC00)) :: cs)
        else none
    else none

/-- MBR metadata of a partition (struct `MBR` in src/lib.rs). -/
structure MBR where
  bootable : Bool
  type_code : Nat
deriving DecidableEq, Repr

/-- GPT metadata of a partition (struct `GPT` in src/lib.rs). -/
structure GPT where
  type_uuid : List Nat
  partition_uuid : List Nat
  attributes : List Nat
  name : String
deriving DecidableEq, Repr

/-- One partition record (struct `Partition` in src/lib.rs). -/
structure Partition where
  id : Nat
  start_sector : Nat
  number_of_sector : Nat
  mbr : Option MBR
  gpt : Option GPT
deriving DecidableEq, Repr

/-- The partition table (struct `Partitions` in src/lib.rs). -/
structure Partitions where
  part : List Partition
deriving DecidableEq, Repr

/-- `Partition::is_gpt` from src/lib.rs: the protective-MBR predicate. -/
def Partition.is_gpt (self : Partition) : Bool :=
  match self.mbr with
  | none => false
  | some mbr =>
    if !mbr.bootable && mbr.type_code == 0xEE then
      self.id == 1 && decide (self.start_sector ≤ 16 * 1024)
    else false

/-- Reason string of the invalid-status error in src/mbr.rs
(`format!("invalid status code in partition {}: {:x}", entry_id, status)`). -/
def invalidStatusMsg (entry_id status : Nat) : String :=
  "invalid status code in partition " ++ toString entry_id ++ ": " ++ hexStr status

/-- Body of the slot loop of `mbr_partition_table` (src/mbr.rs, one
iteration): returns the partition pushed for this slot, `none` when the
slot's type code is 0, or the invalid-status error. -/
def mbrSlot (sector : List Nat) (entry_id : Nat) : Except String (Option Partition) :=
  let first_entry_offset := 446
  let entry_size := 16
  let entry_offset := first_entry_offset + entry_id * entry_size
  let status := byte sector entry_offset
  if status = 0x00 ∨ status = 0x80 then
    let bootable : Bool := status = 0x80
    let type_code := byte sector (entry_offset + 4)
    if type_code = 0 then
      .ok none
    else
      let start_sector := readU32 sector (entry_offset + 8)
      let number_of_sector := readU32 sector (entry_offset + 12)
      .ok (some { id := entry_id + 1, start_sector := start_sector,
                  number_of_sector := number_of_sector,
                  mbr := some { bootable := bootable, type_code := type_code },
                  gpt := none })
  else
    .error (invalidStatusMsg entry_id status)

/-- `mbr_partition_table` from src/mbr.rs; the four-iteration slot loop
is unrolled, keeping the source's evaluation order (the first failing
slot aborts the decode). -/
def mbr_partition_table (sector : List Nat) : Except String (List Partition) :=
  match mbrSlot sector 0 with
  | .error e => .error e
  | .ok o0 =>
  match mbrSlot sector 1 with
  | .error e => .error e
  | .ok o1 =>
  match mbrSlot sector 2 with
  | .error e => .error e
  | .ok o2 =>
  match mbrSlot sector 3 with
  | .error e => .error e
  | .ok o3 => .ok ([o0, o1, o2, o3].filterMap id)

deriving instance DecidableEq for Except

/-- Outcome of a fallible, possibly panicking Rust computation:
a value, a `RustructError::Unknown` reason string, an I/O error of the
byte source, or a panic (out-of-bounds slice / division by zero). -/
inductive RRes (α : Type) where
  | ok (a : α)
  | err (msg : String)
  | ioError
  | panic
deriving DecidableEq, Repr

/-- Sequencing of `RRes` computations (Rust `?` propagation). -/
def RRes.bind {α β : Type} : RRes α → (α → RRes β) → RRes β
  | .ok a, f => f a
  | .err e, _ => .err e
  | .ioError, _ => .ioError
  | .panic, _ => .panic

/-- Rust slice `&l[a..b]`: panics unless `a ≤ b ≤ l.len()`. -/
def sliceP (l : List Nat) (a b : Nat) : RRes (List Nat) :=
  if a ≤ b ∧ b ≤ l.length then .ok ((l.drop a).take (b - a)) else .panic

/-- `seek(SeekFrom::Start pos)` followed by `read_exact` of `n` bytes:
an I/O error when the source is too short. -/
def readExactP (file : List Nat) (pos n : Nat) : RRes (List Nat) :=
  if pos + n ≤ file.length then .ok ((file.drop pos).take n) else .ioError

/-- Checked little-endian 32-bit read of `&l[i..i+4]`. -/
def readU32P (l : List Nat) (i : Nat) : RRes Nat :=
  if i + 4 ≤ l.length then .ok (readU32 l i) else .panic

/-- Checked little-endian 64-bit read of `&l[i..i+8]`. -/
def readU64P (l : List Nat) (i : Nat) : RRes Nat :=
  if i + 8 ≤ l.length then .ok (readU64 l i) else .panic

/-- Zeroing of bytes 0x10–0x13 of the header block (the CRC field), as
a pure function on the list. -/
def zeroCrc (l : List Nat) : List Nat :=
  (((l.set 0x10 0).set 0x11 0).set 0x12 0).set 0x13 0

/-- The in-place zeroing loop `for i in 0x10..0x14 { lba1[i] = 0 }`:
panics when the block is shorter than 0x14 bytes. -/
def zeroCrcP (l : List Nat) : RRes (List Nat) :=
  if 0x14 ≤ l.length then .ok (zeroCrc l) else .panic

/-- Reason string of the name-decode error in src/gpt.rs
(`format!("partition {} has an invalid name: {:?}", id, e)`; the Debug
rendering of `std::string::FromUtf16Error` is a fixed text). -/
def nameErrMsg (id : Nat) : String :=
  "partition " ++ toString id ++ " has an invalid name: FromUtf16Error(())"

/-- Body of the entry loop of `gpt_from_file` (src/gpt.rs lines 98–138),
acting on one `entry_size`-byte entry slice: `none` for an unused slot,
the pushed partition, or the abort error of this iteration. -/
def gptEntry (first_usable_lba last_usable_lba id : Nat) (entry : List Nat) :
    RRes (Option Partition) :=
  RRes.bind (sliceP entry 0x00 0x10) fun type_uuid =>
  if all_zero type_uuid then .ok none else
  RRes.bind (sliceP entry 0x10 0x20) fun partition_uuid =>
  RRes.bind (readU64P entry 0x20) fun first_lba =>
  RRes.bind (readU64P entry 0x28) fun last_lba =>
  if first_lba > last_lba ∨ first_lba < first_usable_lba ∨ last_lba > last_usable_lba then
    .err "partition entry is out of range"
  else
  RRes.bind (sliceP entry 0x30 0x38) fun attributes =>
  RRes.bind (sliceP entry 0x38 0x80) fun name_data =>
  let name_le := ((List.range 36).map (fun idx => readU16 name_data (2 * idx))).takeWhile
    (fun v => 0 != v)
  match utf16DecodeChars name_le with
  | some cs =>
    .ok (some { id := id + 1, start_sector := first_lba,
                number_of_sector := last_lba - first_lba + 1, mbr := none,
                gpt := some { type_uuid := type_uuid, partition_uuid := partition_uuid,
                              attributes := attributes, name := String.mk cs } })
  | none => .err (nameErrMsg id)

/-- The entry loop of `gpt_from_file`: starting at entry index `i` with
`count` entries left to process, collects the pushed partitions in table
order (the call site passes `i = 0`, `count = entries`). -/
def gptLoop (first_usable_lba last_usable_lba entry_size : Nat) (table : List Nat)
    (i : Nat) : Nat → RRes (List Partition)
  | 0 => .ok []
  | count + 1 =>
    RRes.bind (sliceP table (i * entry_size) ((i + 1) * entry_size)) fun entry =>
    RRes.bind (gptEntry first_usable_lba last_usable_lba i entry) fun o =>
    RRes.bind (gptLoop first_usable_lba last_usable_lba entry_size table (i + 1) count) fun rest =>
    match o with
    | none => .ok rest
    | some p => .ok (p :: rest)

/-- The part of `gpt_from_file` following the header-CRC gate
(src/gpt.rs lines 47–142): the remaining header checks, the entry-table
read and the entry loop, acting on the zeroed header block `lba1z`. -/
def gptAfterCrc (file : List Nat) (sector_size : Nat) (lba1z : List Nat)
    (header_size : Nat) : RRes (List Partition) :=
  RRes.bind (readU32P lba1z 0x14) fun reserved =>
  if reserved ≠ 0 then .err "unsupported data in reserved field 0x0c" else
  RRes.bind (readU64P lba1z 0x18) fun current_lba =>
  if current_lba ≠ 1 then .err "current lba must be '1' for first header" else
  RRes.bind (readU64P lba1z 0x28) fun first_usable_lba =>
  RRes.bind (readU64P lba1z 0x30) fun last_usable_lba =>
  if first_usable_lba > last_usable_lba then .err "usable lbas are backwards?!" else
  RRes.bind (sliceP lba1z 0x38 0x48) fun _guid =>
  RRes.bind (readU64P lba1z 0x48) fun start_lba =>
  if start_lba ≠ 2 then .err "starting lba must be '2' for first header" else
  RRes.bind (readU32P lba1z 0x50) fun entries =>
  RRes.bind (readU32P lba1z 0x54) fun entry_size =>
  if entry_size < 128 then .err "entry size is implausibly small" else
  if sector_size = 0 then .panic else
  if first_usable_lba < 2 + entry_size * entries / sector_size then
    .err "first usable lba is too low" else
  RRes.bind (sliceP lba1z header_size lba1z.length) fun tl =>
  if ¬ all_zero tl then .err "reserved header tail is not all empty" else
  RRes.bind (readExactP file (sector_size + sector_size) (entry_size * entries)) fun table =>
  gptLoop first_usable_lba last_usable_lba entry_size table 0 entries

/-- `gpt_from_file` from src/gpt.rs: seeks to `sector_size`, reads and
validates the GPT header block (signature, revision, header size and
header CRC), then continues with `gptAfterCrc`. -/
def gpt_from_file (file : List Nat) (sector_size : Nat) : RRes (List Partition) :=
  RRes.bind (readExactP file sector_size sector_size) fun lba1 =>
  RRes.bind (sliceP lba1 0x00 0x08) fun sig =>
  if sig ≠ [0x45, 0x46, 0x49, 0x20, 0x50, 0x41, 0x52, 0x54] then .err "bad EFI signature" else
  RRes.bind (sliceP lba1 0x08 0x0c) fun rev =>
  if rev ≠ [0, 0, 1, 0] then .err "unsupported revision" else
  RRes.bind (readU32P lba1 0x0c) fun header_size =>
  if header_size < 92 then .err "header too short" else
  RRes.bind (readU32P lba1 0x10) fun header_crc =>
  RRes.bind (zeroCrcP lba1) fun lba1z =>
  RRes.bind (sliceP lba1z 0 header_size) fun crcRegion =>
  if header_crc ≠ checksum_ieee crcRegion then .err "header checksum mismatch" else
  gptAfterCrc file sector_size lba1z header_size

/-- `Partitions::from_file` from src/lib.rs: checks the boot signature,
decodes the MBR table, and switches to the GPT decoder exactly on a
single-entry protective MBR. -/
def Partitions.from_file (file : List Nat) : RRes Partitions :=
  RRes.bind (readExactP file 0 512) fun disc_header =>
  if ¬ (byte disc_header 510 = 0x55 ∧ byte disc_header 511 = 0xAA) then
    .err "Partition header not found"
  else
    match mbr_partition_table disc_header with
    | .error e => .err e
    | .ok mbr_part =>
      match mbr_part with
      | [p] =>
        if p.is_gpt then
          RRes.bind (gpt_from_file file 512) fun gpt_part => .ok { part := gpt_part }
        else .ok { part := mbr_part }
      | _ => .ok { part := mbr_part }

/-! ## Concrete byte-source builders (test vectors for witnesses) -/

/-- Little-endian 4-byte encoding of a 32-bit value. -/
def u32le (n : Nat) : List Nat :=
  [n % 0x100, n / 0x100 % 0x100, n / 0x10000 % 0x100, n / 0x1000000 % 0x100]

/-- Little-endian 8-byte encoding of a 64-bit value. -/
def u64le (n : Nat) : List Nat := u32le (n % 0x100000000) ++ u32le (n / 0x100000000)

/-- One 16-byte MBR slot: status, CHS fields zero, type code, start LBA, count. -/
def mkSlot (status type_code start count : Nat) : List Nat :=
  [status, 0, 0, 0, type_code, 0, 0, 0] ++ u32le start ++ u32le count

/-- An unused (all-zero) MBR slot. -/
def zeroSlot : List Nat := List.replicate 16 0

/-- A 512-byte boot sector with the given four slots and a valid signature. -/
def mkMbrSector (s0 s1 s2 s3 : List Nat) : List Nat :=
  List.replicate 446 0 ++ s0 ++ s1 ++ s2 ++ s3 ++ [0x55, 0xAA]

/-- A boot sector holding a single protective-MBR entry. -/
def protSector : List Nat := mkMbrSector (mkSlot 0 0xEE 1 0xFFFF) zeroSlot zeroSlot zeroSlot

/-- The ASCII bytes of "EFI PART". -/
def gptSig : List Nat := [0x45, 0x46, 0x49, 0x20, 0x50, 0x41, 0x52, 0x54]

/-- A 92-byte GPT header: given CRC field, entry count, usable range;
revision 1.0, header_size 92, current LBA 1, entry table LBA 2,
entry size 128, all reserved fields zero. -/
def mkHeader (crc entries fu lu : Nat) : List Nat :=
  gptSig ++ [0, 0, 1, 0] ++ u32le 92 ++ u32le crc ++ u32le 0 ++ u64le 1 ++ u64le 0 ++
  u64le fu ++ u64le lu ++ List.replicate 16 0 ++ u64le 2 ++ u32le entries ++ u32le 128 ++ u32le 0

/-- A 128-byte GPT entry named "DATA", occupying LBAs 3–10. -/
def dataEntry : List Nat :=
  (1 :: List.replicate 15 0) ++ List.replicate 16 2 ++ u64le 3 ++ u64le 10 ++
  List.replicate 8 0 ++ ([0x44, 0, 0x41, 0, 0x54, 0, 0x41, 0] ++ List.replicate 64 0)

/-!
## C2 — the protective-MBR predicate
-/

/-- The protective-MBR example entry of the spec: bootable = false,
type code 0xEE, id 1, start sector 1. -/
def protExample : Partition :=
  ⟨1, 1, 0xFFFF, some ⟨false, 0xEE⟩, none⟩

/-- The same entry with type code 0xEF. -/
def nonProtExample : Partition :=
  ⟨1, 1, 0xFFFF, some ⟨false, 0xEF⟩, none⟩

/-- C2: `Partition::is_gpt` returns true exactly when the partition carries
MBR metadata with `bootable = false` and `type_code = 0xEE`, its id is 1
and its start sector is at most 16384; the single protective example with
type code 0xEE satisfies it and the 0xEF variant does not. -/
theorem c2_protective_predicate :
    (∀ p : Partition, p.is_gpt = true ↔
      ∃ m, p.mbr = some m ∧ m.bootable = false ∧ m.type_code = 0xEE ∧
        p.id = 1 ∧ p.start_sector ≤ 16384) ∧
    protExample.is_gpt = true ∧ nonProtExample.is_gpt = false := by
  refine ⟨fun p => ?_, by decide, by decide⟩
  unfold Partition.is_gpt
  rcases hm : p.mbr with _ | m
  · simp
  · rcases m with ⟨b, tc⟩
    cases b <;> simp [hm]

/-!
## C6, C7 — the MBR table decoder
-/

/-- Per-slot reduction of `mbrSlot` for a valid status byte. -/
theorem mbrSlot_of_status (sector : List Nat) (i : Nat)
    (h : byte sector (446 + i * 16) = 0 ∨ byte sector (446 + i * 16) = 0x80) :
    mbrSlot sector i =
      .ok (if byte sector (446 + i * 16 + 4) = 0 then none else
        some ⟨i + 1, readU32 sector (446 + i * 16 + 8), readU32 sector (446 + i * 16 + 12),
          some ⟨decide (byte sector (446 + i * 16) = 0x80), byte sector (446 + i * 16 + 4)⟩,
          none⟩) := by
  unfold mbrSlot
  rcases h with h | h <;> simp [h] <;> split <;> simp

/-- Per-slot reduction of `mbrSlot` for an invalid status byte. -/
theorem mbrSlot_of_bad_status (sector : List Nat) (i : Nat)
    (h0 : byte sector (446 + i * 16) ≠ 0) (h80 : byte sector (446 + i * 16) ≠ 0x80) :
    mbrSlot sector i = .error (invalidStatusMsg i (byte sector (446 + i * 16))) := by
  unfold mbrSlot
  simp [h0, h80]

/-- Spec-side description of one slot of the claim: skip when the type
code byte is zero, else the triple (slot index + 1, start, count). -/
def mbrClaimedTriple (sector : List Nat) (i : Nat) : Option (Nat × Nat × Nat) :=
  if byte sector (446 + i * 16 + 4) = 0 then none
  else some (i + 1, readU32 sector (446 + i * 16 + 8), readU32 sector (446 + i * 16 + 12))

/-- Spec-side description of the whole table: the four slots in order,
unused ones skipped. -/
def mbrClaimedTriples (sector : List Nat) : List (Nat × Nat × Nat) :=
  [mbrClaimedTriple sector 0, mbrClaimedTriple sector 1,
   mbrClaimedTriple sector 2, mbrClaimedTriple sector 3].filterMap id

theorem c6_mbr_decode_shape :
    ∀ sector : List Nat, sector.length = 512 →
    (∀ i, i < 4 → byte sector (446 + i * 16) = 0 ∨ byte sector (446 + i * 16) = 0x80) →
    ∃ ps, mbr_partition_table sector = .ok ps ∧
      ps.map (fun p => (p.id, p.start_sector, p.number_of_sector)) = mbrClaimedTriples sector ∧
      ps.length ≤ 4 := by
  intro sector _ h
  rw [mbr_partition_table, mbrSlot_of_status sector 0 (h 0 (by omega)),
      mbrSlot_of_status sector 1 (h 1 (by omega)), mbrSlot_of_status sector 2 (h 2 (by omega)),
      mbrSlot_of_status sector 3 (h 3 (by omega))]
  refine ⟨_, rfl, ?_, ?_⟩
  · unfold mbrClaimedTriples mbrClaimedTriple
    by_cases h0 : byte sector (446 + 0 * 16 + 4) = 0 <;>
      by_cases h1 : byte sector (446 + 1 * 16 + 4) = 0 <;>
      by_cases h2 : byte sector (446 + 2 * 16 + 4) = 0 <;>
      by_cases h3 : byte sector (446 + 3 * 16 + 4) = 0 <;>
      simp [h0, h1, h2, h3]
  · by_cases h0 : byte sector (446 + 0 * 16 + 4) = 0 <;>
      by_cases h1 : byte sector (446 + 1 * 16 + 4) = 0 <;>
      by_cases h2 : byte sector (446 + 2 * 16 + 4) = 0 <;>
      by_cases h3 : byte sector (446 + 3 * 16 + 4) = 0 <;>
      simp [h0, h1, h2, h3]

def wfSector : List Nat :=
  mkMbrSector (mkSlot 0 0x83 2048 1000) (mkSlot 0x80 0x07 4096 500) zeroSlot zeroSlot

theorem c6_mbr_decode_shape_witness :
    wfSector.length = 512 ∧
    (∀ i, i < 4 → byte wfSector (446 + i * 16) = 0 ∨ byte wfSector (446 + i * 16) = 0x80) ∧
    (∃ ps, mbr_partition_table wfSector = .ok ps ∧
      ps.map (fun p => (p.id, p.start_sector, p.number_of_sector)) = mbrClaimedTriples wfSector ∧
      ps.length ≤ 4) :=
  ⟨by decide, by decide, c6_mbr_decode_shape wfSector (by decide) (by decide)⟩

def badStatusSector : List Nat :=
  mkMbrSector (mkSlot 0 0x83 2048 1000) (mkSlot 0x81 0x07 4096 500) zeroSlot zeroSlot

/-- C7 counterexample: on a sector whose slot 1 carries status byte 0x81,
the decode fails, but with the reason string
"invalid status code in partition 1: 81", not the claimed
"invalid status code in slot 1: 81". -/
theorem c7_invalid_status_cex :
    mbr_partition_table badStatusSector = .error "invalid status code in partition 1: 81" ∧
    mbr_partition_table badStatusSector ≠ .error "invalid status code in slot 1: 81" := by
  constructor <;> decide

/-- C7 (amended): an invalid status byte in slot `i` (all earlier slots
well-formed) aborts the whole decode with the error
"invalid status code in partition i: <value in lowercase hex>",
regardless of the later slots' contents. -/
theorem c7_invalid_status_amended :
    ∀ (sector : List Nat) (i : Nat), i < 4 →
    byte sector (446 + i * 16) ≠ 0 → byte sector (446 + i * 16) ≠ 0x80 →
    (∀ j, j < i → byte sector (446 + j * 16) = 0 ∨ byte sector (446 + j * 16) = 0x80) →
    mbr_partition_table sector = .error (invalidStatusMsg i (byte sector (446 + i * 16))) := by
  intro sector i hi h0 h80 hj
  interval_cases i
  · rw [mbr_partition_table, mbrSlot_of_bad_status sector 0 h0 h80]
  · rw [mbr_partition_table, mbrSlot_of_status sector 0 (hj 0 (by omega)),
        mbrSlot_of_bad_status sector 1 h0 h80]
  · rw [mbr_partition_table, mbrSlot_of_status sector 0 (hj 0 (by omega)),
        mbrSlot_of_status sector 1 (hj 1 (by omega)),
        mbrSlot_of_bad_status sector 2 h0 h80]
  · rw [mbr_partition_table, mbrSlot_of_status sector 0 (hj 0 (by omega)),
        mbrSlot_of_status sector 1 (hj 1 (by omega)),
        mbrSlot_of_status sector 2 (hj 2 (by omega)),
        mbrSlot_of_bad_status sector 3 h0 h80]

theorem c7_invalid_status_amended_witness :
    3 < 4 ∧ byte badStatusSector (446 + 1 * 16) ≠ 0 ∧
    mbr_partition_table badStatusSector =
      .error (invalidStatusMsg 1 (byte badStatusSector (446 + 1 * 16))) :=
  ⟨by omega, by decide,
    c7_invalid_status_amended badStatusSector 1 (by omega) (by decide) (by decide) (by decide)⟩

/-!
## C1, C10 — the scheme selector
-/

/-- Reading a byte inside the taken prefix of a list. -/
theorem byte_take (l : List Nat) (n i : Nat) (h : i < n) : byte (l.take n) i = byte l i := by
  simp [byte, List.getD, List.getElem?_take, h]

/-- Reduction of `Partitions::from_file` once the boot sector is valid
and the MBR table is decoded: the scheme selection step. -/
theorem from_file_after_mbr (file : List Nat) (t : List Partition)
    (hlen : 512 ≤ file.length) (h55 : byte file 510 = 0x55) (hAA : byte file 511 = 0xAA)
    (hmbr : mbr_partition_table (file.take 512) = .ok t) :
    Partitions.from_file file =
      (match t with
       | [p] =>
         if p.is_gpt then RRes.bind (gpt_from_file file 512) fun g => .ok ⟨g⟩ else .ok ⟨t⟩
       | _ => .ok ⟨t⟩) := by
  unfold Partitions.from_file
  rw [readExactP, if_pos (by omega), RRes.bind, List.drop_zero]
  rw [byte_take file 512 510 (by omega), byte_take file 512 511 (by omega), h55, hAA]
  rw [if_neg (by simp)]
  simp only [hmbr]
  rcases t with _ | ⟨p, rest⟩ <;> try rfl
  rcases rest with _ | ⟨q, rest⟩ <;> rfl

/-- C1: when the boot signature is valid and the MBR table decodes to `t`,
`Partitions::from_file` returns the GPT decoder's output exactly when `t`
has one entry satisfying the protective-MBR predicate, and returns `t`
unchanged (including an empty `t`) otherwise. -/
theorem c1_scheme_selection :
    ∀ (file : List Nat) (t : List Partition),
    512 ≤ file.length → byte file 510 = 0x55 → byte file 511 = 0xAA →
    mbr_partition_table (file.take 512) = .ok t →
    ((t.length = 1 ∧ ∀ p ∈ t, p.is_gpt = true) →
      Partitions.from_file file = RRes.bind (gpt_from_file file 512) fun g => .ok ⟨g⟩) ∧
    (¬ (t.length = 1 ∧ ∀ p ∈ t, p.is_gpt = true) →
      Partitions.from_file file = .ok ⟨t⟩) := by
  intro file t hlen h55 hAA hmbr
  rw [from_file_after_mbr file t hlen h55 hAA hmbr]
  constructor
  · rintro ⟨h1, hall⟩
    rcases t with _ | ⟨p, _ | ⟨q, r⟩⟩ <;> simp_all
  · intro hne
    rcases t with _ | ⟨p, _ | ⟨q, r⟩⟩ <;> simp_all

/-- The two-slot MBR table decoded from `wfSector`. -/
def wfTable : List Partition :=
  [⟨1, 2048, 1000, some ⟨false, 0x83⟩, none⟩, ⟨2, 4096, 500, some ⟨true, 0x07⟩, none⟩]

theorem c1_scheme_selection_witness :
    512 ≤ wfSector.length ∧ byte wfSector 510 = 0x55 ∧
    mbr_partition_table (List.take 512 wfSector) = .ok wfTable ∧
    Partitions.from_file wfSector = .ok ⟨wfTable⟩ :=
  ⟨by decide, by decide, by decide,
    (c1_scheme_selection wfSector wfTable (by decide) (by decide) (by decide)
      (by decide)).2 (by decide)⟩

/-- C10: under a single-entry protective MBR, a failure of the GPT decode
(error or I/O error) is the result of the whole `from_file` call; the
already-decoded MBR table is never used as a fallback. -/
theorem c10_gpt_failure_propagates :
    ∀ (file : List Nat) (p : Partition),
    512 ≤ file.length → byte file 510 = 0x55 → byte file 511 = 0xAA →
    mbr_partition_table (file.take 512) = .ok [p] → p.is_gpt = true →
    (∀ e, gpt_from_file file 512 = .err e → Partitions.from_file file = .err e) ∧
    (gpt_from_file file 512 = .ioError → Partitions.from_file file = .ioError) := by
  intro file p hlen h55 hAA hmbr hgpt
  rw [from_file_after_mbr file [p] hlen h55 hAA hmbr]
  constructor
  · intro e he
    simp [hgpt, he, RRes.bind]
  · intro he
    simp [hgpt, he, RRes.bind]

theorem c10_gpt_failure_propagates_witness :
    mbr_partition_table (List.take 512 protSector) = .ok [protExample] ∧
    gpt_from_file protSector 512 = .ioError ∧
    Partitions.from_file protSector = .ioError :=
  ⟨by decide, by decide,
    (c10_gpt_failure_propagates protSector protExample (by decide) (by decide) (by decide)
      (by decide) (by decide)).2 (by decide)⟩

/-!
## C4 — sector-count positivity
-/

/-- Inversion of `RRes.bind` on a successful outcome. -/
theorem RRes.bind_eq_ok {α β : Type} (x : RRes α) (f : α → RRes β) (v : β) :
    RRes.bind x f = .ok v ↔ ∃ a, x = .ok a ∧ f a = .ok v := by
  cases x <;> simp [RRes.bind]

/-- Every partition pushed by the GPT entry loop body has at least one
sector: its sector count is `last_lba - first_lba + 1`. -/
theorem gptEntry_sector_count_pos (fu lu id : Nat) (entry : List Nat) (p : Partition)
    (h : gptEntry fu lu id entry = .ok (some p)) : 1 ≤ p.number_of_sector := by
  unfold gptEntry at h
  rw [RRes.bind_eq_ok] at h; obtain ⟨tu, -, h⟩ := h
  split at h
  · simp at h
  rw [RRes.bind_eq_ok] at h; obtain ⟨pu, -, h⟩ := h
  rw [RRes.bind_eq_ok] at h; obtain ⟨fl, -, h⟩ := h
  rw [RRes.bind_eq_ok] at h; obtain ⟨ll, -, h⟩ := h
  split at h
  · simp at h
  rw [RRes.bind_eq_ok] at h; obtain ⟨attr, -, h⟩ := h
  rw [RRes.bind_eq_ok] at h; obtain ⟨nd, -, h⟩ := h
  dsimp only at h
  split at h
  · simp only [RRes.ok.injEq, Option.some.injEq] at h
    subst h
    simp
  · simp at h

/-- Every partition collected by the GPT entry loop has at least one
sector. -/
theorem gptLoop_sector_count_pos (fu lu es : Nat) (table : List Nat) :
    ∀ (count i : Nat) (ps : List Partition),
    gptLoop fu lu es table i count = .ok ps → ∀ p ∈ ps, 1 ≤ p.number_of_sector := by
  intro count
  induction count with
  | zero =>
    intro i ps h
    rcases h with ⟨⟩
    simp
  | succ count ih =>
    intro i ps h
    rw [gptLoop] at h
    rw [RRes.bind_eq_ok] at h; obtain ⟨entry, -, h⟩ := h
    rw [RRes.bind_eq_ok] at h; obtain ⟨o, ho, h⟩ := h
    rw [RRes.bind_eq_ok] at h; obtain ⟨rest, hrest, h⟩ := h
    have hr := ih (i + 1) rest hrest
    rcases o with _ | p0
    · rcases h with ⟨⟩
      exact hr
    · rcases h with ⟨⟩
      intro p hp
      rcases List.mem_cons.mp hp with rfl | hp
      · exact gptEntry_sector_count_pos fu lu i entry p ho
      · exact hr p hp

/-- A validation gate whose hit branch is an error cannot produce a value. -/
theorem RRes.ite_then_err {c : Prop} [Decidable c] {α : Type} {e : String} {x : RRes α}
    {v : α} (h : (if c then RRes.err e else x) = .ok v) : x = .ok v := by
  by_cases hc : c
  · rw [if_pos hc] at h
    exact RRes.noConfusion h
  · rwa [if_neg hc] at h

/-- A gate whose hit branch is a panic cannot produce a value. -/
theorem RRes.ite_then_panic {c : Prop} [Decidable c] {α : Type} {x : RRes α}
    {v : α} (h : (if c then RRes.panic else x) = .ok v) : x = .ok v := by
  by_cases hc : c
  · rw [if_pos hc] at h
    exact RRes.noConfusion h
  · rwa [if_neg hc] at h

/-- C4 (amended): every partition emitted by a successful GPT decode has
`number_of_sector ≥ 1` (the MBR decoder instead copies the raw 32-bit
count field, which may be zero). -/
theorem c4_gpt_sector_count_pos :
    ∀ (file : List Nat) (sector_size : Nat) (ps : List Partition),
    gpt_from_file file sector_size = .ok ps → ∀ p ∈ ps, 1 ≤ p.number_of_sector := by
  intro file ss ps h
  unfold gpt_from_file at h
  rw [RRes.bind_eq_ok] at h; obtain ⟨lba1, -, h⟩ := h
  rw [RRes.bind_eq_ok] at h; obtain ⟨sig, -, h⟩ := h
  replace h := RRes.ite_then_err h
  rw [RRes.bind_eq_ok] at h; obtain ⟨rev, -, h⟩ := h
  replace h := RRes.ite_then_err h
  rw [RRes.bind_eq_ok] at h; obtain ⟨hs, -, h⟩ := h
  replace h := RRes.ite_then_err h
  rw [RRes.bind_eq_ok] at h; obtain ⟨crc, -, h⟩ := h
  rw [RRes.bind_eq_ok] at h; obtain ⟨lz, -, h⟩ := h
  rw [RRes.bind_eq_ok] at h; obtain ⟨region, -, h⟩ := h
  replace h := RRes.ite_then_err h
  rw [gptAfterCrc] at h
  rw [RRes.bind_eq_ok] at h; obtain ⟨res, -, h⟩ := h
  replace h := RRes.ite_then_err h
  rw [RRes.bind_eq_ok] at h; obtain ⟨cur, -, h⟩ := h
  replace h := RRes.ite_then_err h
  rw [RRes.bind_eq_ok] at h; obtain ⟨fu, -, h⟩ := h
  rw [RRes.bind_eq_ok] at h; obtain ⟨lu, -, h⟩ := h
  replace h := RRes.ite_then_err h
  rw [RRes.bind_eq_ok] at h; obtain ⟨g, -, h⟩ := h
  rw [RRes.bind_eq_ok] at h; obtain ⟨sl, -, h⟩ := h
  replace h := RRes.ite_then_err h
  rw [RRes.bind_eq_ok] at h; obtain ⟨entries, -, h⟩ := h
  rw [RRes.bind_eq_ok] at h; obtain ⟨es, -, h⟩ := h
  replace h := RRes.ite_then_err h
  replace h := RRes.ite_then_panic h
  replace h := RRes.ite_then_err h
  rw [RRes.bind_eq_ok] at h; obtain ⟨tl, -, h⟩ := h
  replace h := RRes.ite_then_err h
  rw [RRes.bind_eq_ok] at h; obtain ⟨table, -, h⟩ := h
  exact gptLoop_sector_count_pos fu lu es table entries 0 ps h

/-- CRC-32 state update splits over list concatenation. -/
theorem crcUpdate_append (s : Nat) (l1 l2 : List Nat) :
    crcUpdate s (l1 ++ l2) = crcUpdate (crcUpdate s l1) l2 := by
  simp [crcUpdate, List.foldl_append]

/-- The miniature valid GPT header (sector size 92) with its CRC field. -/
def hdr : List Nat := mkHeader 2351608949 1 3 100

/-- The same header with the CRC field zeroed. -/
def hdrZ : List Nat := mkHeader 0 1 3 100

/-- A byte source holding a valid one-entry GPT layout for sector size 92:
one junk sector, the header sector, one 128-byte entry. -/
def miniGoodFile : List Nat := List.replicate 92 7 ++ hdr ++ dataEntry

/-- The partition decoded from `dataEntry`. -/
def dataPartition : Partition :=
  ⟨1, 3, 8, none, some ⟨1 :: List.replicate 15 0, List.replicate 16 2, List.replicate 8 0, "DATA"⟩⟩

/-- CRC-32 of the zeroed miniature header, computed in three chunks to
keep kernel reduction shallow. -/
theorem crc_hdrZ : checksum_ieee hdrZ = 2351608949 := by
  rw [checksum_ieee,
      show hdrZ = hdrZ.take 32 ++ ((hdrZ.drop 32).take 32 ++ hdrZ.drop 64) from by decide,
      crcUpdate_append, crcUpdate_append,
      show crcUpdate 0xFFFFFFFF (hdrZ.take 32) = 4102006339 from by decide,
      show crcUpdate 4102006339 ((hdrZ.drop 32).take 32) = 2932634016 from by decide,
      show crcUpdate 2932634016 (hdrZ.drop 64) = 1943358346 from by decide]
  decide

/-- Reduction of a bind whose first component is known to succeed. -/
theorem RRes.bind_of_ok {α β : Type} {x : RRes α} {a : α} (f : α → RRes β) (h : x = .ok a) :
    RRes.bind x f = f a := by
  rw [h]
  rfl

/-- Evaluation of the GPT decoder on the miniature valid image.  The
header CRC is rewritten through `crc_hdrZ`; everything else evaluates. -/
theorem mini_gpt_decode : gpt_from_file miniGoodFile 92 = .ok [dataPartition] := by
  rw [gpt_from_file]
  rw [RRes.bind_of_ok _ (show readExactP miniGoodFile 92 92 = .ok hdr from by decide)]
  rw [RRes.bind_of_ok _ (show sliceP hdr 0 8 = .ok gptSig from by decide)]
  rw [if_neg (by decide)]
  rw [RRes.bind_of_ok _ (show sliceP hdr 8 12 = .ok [0, 0, 1, 0] from by decide)]
  rw [if_neg (by decide)]
  rw [RRes.bind_of_ok _ (show readU32P hdr 12 = .ok 92 from by decide)]
  rw [if_neg (by decide)]
  rw [RRes.bind_of_ok _ (show readU32P hdr 16 = .ok 2351608949 from by decide)]
  rw [RRes.bind_of_ok _ (show zeroCrcP hdr = .ok hdrZ from by decide)]
  rw [RRes.bind_of_ok _ (show sliceP hdrZ 0 92 = .ok hdrZ from by decide)]
  rw [if_neg (not_ne_iff.mpr crc_hdrZ.symm)]
  rw [gptAfterCrc]
  rw [RRes.bind_of_ok _ (show readU32P hdrZ 20 = .ok 0 from by decide)]
  rw [if_neg (by decide)]
  rw [RRes.bind_of_ok _ (show readU64P hdrZ 24 = .ok 1 from by decide)]
  rw [if_neg (by decide)]
  rw [RRes.bind_of_ok _ (show readU64P hdrZ 40 = .ok 3 from by decide)]
  rw [RRes.bind_of_ok _ (show readU64P hdrZ 48 = .ok 100 from by decide)]
  rw [if_neg (by decide)]
  rw [RRes.bind_of_ok _ (show sliceP hdrZ 56 72 = .ok (List.replicate 16 0) from by decide)]
  rw [RRes.bind_of_ok _ (show readU64P hdrZ 72 = .ok 2 from by decide)]
  rw [if_neg (by decide)]
  rw [RRes.bind_of_ok _ (show readU32P hdrZ 80 = .ok 1 from by decide)]
  rw [RRes.bind_of_ok _ (show readU32P hdrZ 84 = .ok 128 from by decide)]
  rw [if_neg (by decide)]
  rw [if_neg (by decide)]
  rw [if_neg (by decide)]
  rw [RRes.bind_of_ok _ (show sliceP hdrZ 92 hdrZ.length = .ok [] from by decide)]
  rw [if_neg (by decide)]
  rw [RRes.bind_of_ok _ (show readExactP miniGoodFile (92 + 92) (128 * 1) = .ok dataEntry from by decide)]
  decide

theorem c4_gpt_sector_count_pos_witness :
    gpt_from_file miniGoodFile 92 = .ok [dataPartition] ∧
    ∀ p ∈ [dataPartition], 1 ≤ p.number_of_sector :=
  ⟨mini_gpt_decode, c4_gpt_sector_count_pos miniGoodFile 92 [dataPartition] mini_gpt_decode⟩

/-- A boot sector whose first slot has a non-zero type code but a zero
sector-count field. -/
def zeroCountSector : List Nat := mkMbrSector (mkSlot 0 0x83 2048 0) zeroSlot zeroSlot zeroSlot

/-- The partition the MBR decoder emits for that slot. -/
def zeroCountPart : Partition := ⟨1, 2048, 0, some ⟨false, 0x83⟩, none⟩

/-- C4 counterexample: the MBR decoder emits a partition whose
`number_of_sector` is 0, refuting "always ≥ 1 for emitted entries". -/
theorem c4_sector_count_cex :
    mbr_partition_table zeroCountSector = .ok [zeroCountPart] ∧
    ¬ 1 ≤ zeroCountPart.number_of_sector := by
  constructor <;> decide

/-!
## C5, C8 — the GPT entry loop body
-/

/-- Successful slice when the bounds are in range. -/
theorem sliceP_ok {l : List Nat} {a b : Nat} (hab : a ≤ b) (hb : b ≤ l.length) :
    sliceP l a b = .ok ((l.drop a).take (b - a)) := by
  rw [sliceP, if_pos ⟨hab, hb⟩]

/-- Successful 64-bit read when the bounds are in range. -/
theorem readU64P_ok {l : List Nat} {i : Nat} (h : i + 8 ≤ l.length) :
    readU64P l i = .ok (readU64 l i) := by
  rw [readU64P, if_pos h]

/-- The code units of a GPT entry's name field: 36 little-endian 16-bit
reads of bytes [0x38,0x80), truncated at the first zero unit. -/
def nameUnits (entry : List Nat) : List Nat :=
  ((List.range 36).map (fun idx => readU16 ((entry.drop 56).take 72) (2 * idx))).takeWhile
    (fun v => 0 != v)

/-- The name-decode error names a different check than the range error. -/
theorem nameErrMsg_ne_range (id : Nat) :
    nameErrMsg id ≠ "partition entry is out of range" := by
  intro h
  have hl := congrArg String.length h
  rw [nameErrMsg, String.length_append, String.length_append,
      show String.length "partition " = 10 from by decide,
      show String.length " has an invalid name: FromUtf16Error(())" = 40 from by decide,
      show String.length "partition entry is out of range" = 31 from by decide] at hl
  omega

/-- Reduction of the GPT entry-loop body on an in-range, used entry, up
to the range gate. -/
theorem gptEntry_past_uuid (fu lu id : Nat) (entry : List Nat)
    (hlen : 0x80 ≤ entry.length) (huuid : all_zero (entry.take 0x10) = false) :
    gptEntry fu lu id entry =
      (if readU64 entry 0x20 > readU64 entry 0x28 ∨ readU64 entry 0x20 < fu ∨
          readU64 entry 0x28 > lu then
        .err "partition entry is out of range"
      else
        match utf16DecodeChars (nameUnits entry) with
        | some cs =>
          .ok (some { id := id + 1, start_sector := readU64 entry 0x20,
                      number_of_sector := readU64 entry 0x28 - readU64 entry 0x20 + 1,
                      mbr := none,
                      gpt := some { type_uuid := entry.take 0x10,
                                    partition_uuid := (entry.drop 0x10).take 0x10,
                                    attributes := (entry.drop 0x30).take 8,
                                    name := String.mk cs } })
        | none => .err (nameErrMsg id)) := by
  rw [gptEntry]
  rw [RRes.bind_of_ok _ (sliceP_ok (by omega) (by omega))]
  rw [show (0x10 : Nat) - 0 = 0x10 from rfl, List.drop_zero]
  rw [if_neg (by simp [huuid])]
  rw [RRes.bind_of_ok _ (sliceP_ok (by omega) (by omega))]
  rw [RRes.bind_of_ok _ (readU64P_ok (by omega))]
  rw [RRes.bind_of_ok _ (readU64P_ok (by omega))]
  rw [RRes.bind_of_ok _ (sliceP_ok (by omega) (by omega))]
  rw [RRes.bind_of_ok _ (sliceP_ok (by omega) (by omega))]
  norm_num [nameUnits]

/-- A single-sector entry exactly filling the usable range [5,5]. -/
def boundaryEntry : List Nat :=
  (1 :: List.replicate 15 0) ++ List.replicate 16 3 ++ u64le 5 ++ u64le 5 ++
  List.replicate 8 0 ++ List.replicate 72 0

/-- The partition decoded from `boundaryEntry`. -/
def boundaryPart : Partition :=
  ⟨1, 5, 1, none, some ⟨1 :: List.replicate 15 0, List.replicate 16 3, List.replicate 8 0, ""⟩⟩

/-- An entry whose `last_lba` is one past `last_usable_lba = 10`. -/
def onePastEntry : List Nat :=
  (1 :: List.replicate 15 0) ++ List.replicate 16 3 ++ u64le 3 ++ u64le 11 ++
  List.replicate 8 0 ++ List.replicate 72 0

/-- C5: for a used (non-zero type GUID) entry, the loop body aborts with
the range error exactly when `first_lba > last_lba` or the range leaves
`[first_usable_lba, last_usable_lba]`; the boundary single-sector entry
is accepted and the one-past-the-end entry is rejected. -/
theorem c5_range_gate :
    (∀ (fu lu id : Nat) (entry : List Nat),
      0x80 ≤ entry.length → all_zero (entry.take 0x10) = false →
      (gptEntry fu lu id entry = .err "partition entry is out of range" ↔
        readU64 entry 0x20 > readU64 entry 0x28 ∨ readU64 entry 0x20 < fu ∨
        readU64 entry 0x28 > lu)) ∧
    gptEntry 5 5 0 boundaryEntry = .ok (some boundaryPart) ∧
    gptEntry 3 10 0 onePastEntry = .err "partition entry is out of range" := by
  refine ⟨fun fu lu id entry hlen huuid => ?_, by decide, by decide⟩
  rw [gptEntry_past_uuid fu lu id entry hlen huuid]
  constructor
  · intro h
    by_contra hc
    rw [if_neg hc] at h
    rcases hu : utf16DecodeChars (nameUnits entry) with _ | cs
    · rw [hu] at h
      exact nameErrMsg_ne_range id (RRes.err.inj h)
    · rw [hu] at h
      exact RRes.noConfusion h
  · intro h
    rw [if_pos h]

theorem c5_range_gate_witness :
    0x80 ≤ dataEntry.length ∧ all_zero (dataEntry.take 0x10) = false ∧
    (gptEntry 3 100 0 dataEntry = .err "partition entry is out of range" ↔
      readU64 dataEntry 0x20 > readU64 dataEntry 0x28 ∨ readU64 dataEntry 0x20 < 3 ∨
      readU64 dataEntry 0x28 > 100) :=
  ⟨by decide, by decide, c5_range_gate.1 3 100 0 dataEntry (by decide) (by decide)⟩

/-- An entry whose name field starts with an unpaired high surrogate
0xD800 followed by a zero unit. -/
def badNameEntry : List Nat :=
  (1 :: List.replicate 15 0) ++ List.replicate 16 3 ++ u64le 3 ++ u64le 9 ++
  List.replicate 8 0 ++ ([0x00, 0xD8] ++ List.replicate 70 0)

/-- C8: an accepted entry's name is the UTF-16 decoding of the 36 LE
code units at [0x38,0x80) truncated at the first zero unit; an invalid
unit sequence aborts the decode with the error naming the entry index;
the "DATA" name field decodes to "DATA". -/
theorem c8_name_decode :
    (∀ (fu lu id : Nat) (entry : List Nat),
      0x80 ≤ entry.length → all_zero (entry.take 0x10) = false →
      ¬ (readU64 entry 0x20 > readU64 entry 0x28 ∨ readU64 entry 0x20 < fu ∨
         readU64 entry 0x28 > lu) →
      (∀ cs, utf16DecodeChars (nameUnits entry) = some cs →
        ∃ p, gptEntry fu lu id entry = .ok (some p) ∧
          ∃ g, p.gpt = some g ∧ g.name = String.mk cs) ∧
      (utf16DecodeChars (nameUnits entry) = none →
        gptEntry fu lu id entry = .err (nameErrMsg id))) ∧
    gptEntry 3 100 0 dataEntry = .ok (some dataPartition) ∧
    dataPartition.gpt =
      some ⟨1 :: List.replicate 15 0, List.replicate 16 2, List.replicate 8 0, "DATA"⟩ := by
  refine ⟨fun fu lu id entry hlen huuid hrange => ?_, by decide, by decide⟩
  rw [gptEntry_past_uuid fu lu id entry hlen huuid, if_neg hrange]
  constructor
  · intro cs hcs
    rw [hcs]
    exact ⟨_, rfl, _, rfl, rfl⟩
  · intro hn
    rw [hn]

theorem c8_name_decode_witness :
    0x80 ≤ badNameEntry.length ∧ utf16DecodeChars (nameUnits badNameEntry) = none ∧
    gptEntry 3 100 0 badNameEntry = .err (nameErrMsg 0) :=
  ⟨by decide, by decide,
    (c8_name_decode.1 3 100 0 badNameEntry (by decide) (by decide) (by decide)).2 (by decide)⟩

/-!
## C9 — totality of the GPT decoder
-/

/-- A bind does not panic when neither component does. -/
theorem RRes.bind_ne_panic {α β : Type} {x : RRes α} {f : α → RRes β}
    (hx : x ≠ .panic) (hf : ∀ a, x = .ok a → f a ≠ .panic) : RRes.bind x f ≠ .panic := by
  cases x with
  | ok a => exact hf a rfl
  | err e => simp [RRes.bind]
  | ioError => simp [RRes.bind]
  | panic => exact absurd rfl hx

/-- An error gate does not panic when its continuation does not. -/
theorem RRes.ite_err_ne_panic {c : Prop} [Decidable c] {α : Type} {e : String} {x : RRes α}
    (hx : x ≠ .panic) : (if c then RRes.err e else x) ≠ RRes.panic := by
  by_cases hc : c
  · rw [if_pos hc]
    simp
  · rwa [if_neg hc]

/-- Reading a byte source never panics (it may fail with an I/O error). -/
theorem readExactP_ne_panic (file : List Nat) (pos n : Nat) :
    readExactP file pos n ≠ .panic := by
  rw [readExactP]
  split <;> simp

/-- An unused (all-zero type GUID) entry yields no partition. -/
theorem gptEntry_unused (fu lu id : Nat) (entry : List Nat) (hlen : 0x80 ≤ entry.length)
    (hz : all_zero (entry.take 0x10) = true) : gptEntry fu lu id entry = .ok none := by
  rw [gptEntry, RRes.bind_of_ok _ (sliceP_ok (by omega) (by omega)),
      show (0x10 : Nat) - 0 = 0x10 from rfl, List.drop_zero, if_pos hz]

/-- The GPT entry-loop body never panics on a full-size entry slice. -/
theorem gptEntry_ne_panic (fu lu id : Nat) (entry : List Nat) (hlen : 0x80 ≤ entry.length) :
    gptEntry fu lu id entry ≠ .panic := by
  by_cases hz : all_zero (entry.take 0x10) = true
  · rw [gptEntry_unused fu lu id entry hlen hz]
    simp
  · rw [gptEntry_past_uuid fu lu id entry hlen (by revert hz; cases all_zero (entry.take 0x10) <;> simp)]
    apply RRes.ite_err_ne_panic
    split <;> simp

/-- The GPT entry loop never panics when the table holds all the entries
it is asked to process. -/
theorem gptLoop_ne_panic (fu lu es : Nat) (table : List Nat) (hes : 0x80 ≤ es) :
    ∀ (count i : Nat), (i + count) * es ≤ table.length →
    gptLoop fu lu es table i count ≠ .panic := by
  intro count
  induction count with
  | zero =>
    intro i h
    rw [gptLoop]
    simp
  | succ count ih =>
    intro i h
    have hi1 : (i + 1) * es ≤ table.length :=
      le_trans (Nat.mul_le_mul_right es (by omega)) h
    rw [gptLoop]
    apply RRes.bind_ne_panic (by rw [sliceP_ok (Nat.mul_le_mul_right es (by omega)) hi1]; simp)
    intro entry hentry
    have hel : 0x80 ≤ entry.length := by
      rw [sliceP_ok (Nat.mul_le_mul_right es (by omega)) hi1] at hentry
      rcases hentry with ⟨⟩
      rw [List.length_take, List.length_drop]
      have : (i + 1) * es = i * es + es := by ring
      omega
    apply RRes.bind_ne_panic (gptEntry_ne_panic fu lu i entry hel)
    intro o ho
    apply RRes.bind_ne_panic (ih (i + 1) (by rw [show i + 1 + count = i + (count + 1) from by omega]; exact h))
    intro rest hrest
    cases o <;> simp

/-- Successful 32-bit read when the bounds are in range. -/
theorem readU32P_ok {l : List Nat} {i : Nat} (h : i + 4 ≤ l.length) :
    readU32P l i = .ok (readU32 l i) := by
  rw [readU32P, if_pos h]

/-- Successful CRC-field zeroing when the block is long enough. -/
theorem zeroCrcP_ok {l : List Nat} (h : 0x14 ≤ l.length) : zeroCrcP l = .ok (zeroCrc l) := by
  rw [zeroCrcP, if_pos h]

/-- Inversion of a successful exact read. -/
theorem readExactP_ok_inv {file : List Nat} {pos n : Nat} {l : List Nat}
    (h : readExactP file pos n = .ok l) :
    l = (file.drop pos).take n ∧ pos + n ≤ file.length := by
  rw [readExactP] at h
  by_cases hc : pos + n ≤ file.length
  · rw [if_pos hc] at h
    exact ⟨(RRes.ok.inj h).symm, hc⟩
  · rw [if_neg hc] at h
    exact absurd h (by simp)

/-- Zeroing the CRC field preserves the block length. -/
theorem zeroCrc_length (l : List Nat) : (zeroCrc l).length = l.length := by
  simp [zeroCrc]

/-- C9 (amended): the GPT decoder never panics provided the sector size
is at least 88 and the header block's `header_size` field does not
exceed the sector size; no validation gate enforces the latter bound. -/
theorem c9_no_panic_amended :
    ∀ (file : List Nat) (sector_size : Nat), 88 ≤ sector_size →
    readU32 ((file.drop sector_size).take sector_size) 0x0c ≤ sector_size →
    gpt_from_file file sector_size ≠ .panic := by
  intro file ss hss hhs
  rw [gpt_from_file]
  apply RRes.bind_ne_panic (readExactP_ne_panic file ss ss)
  intro lba1 hlba1
  obtain ⟨hval, hfl⟩ := readExactP_ok_inv hlba1
  have hlen : lba1.length = ss := by
    rw [hval, List.length_take, List.length_drop]
    omega
  have hhs2 : readU32 lba1 0x0c ≤ ss := by
    rw [hval]
    exact hhs
  apply RRes.bind_ne_panic (by rw [sliceP_ok (by omega) (by rw [hlen]; omega)]; simp)
  intro sig _
  apply RRes.ite_err_ne_panic
  apply RRes.bind_ne_panic (by rw [sliceP_ok (by omega) (by rw [hlen]; omega)]; simp)
  intro rev _
  apply RRes.ite_err_ne_panic
  apply RRes.bind_ne_panic (by rw [readU32P_ok (by rw [hlen]; omega)]; simp)
  intro header_size hhsv
  have hhs3 : header_size ≤ ss := by
    rw [readU32P_ok (by rw [hlen]; omega)] at hhsv
    rcases hhsv with ⟨⟩
    exact hhs2
  apply RRes.ite_err_ne_panic
  apply RRes.bind_ne_panic (by rw [readU32P_ok (by rw [hlen]; omega)]; simp)
  intro header_crc _
  apply RRes.bind_ne_panic (by rw [zeroCrcP_ok (by rw [hlen]; omega)]; simp)
  intro lba1z hlz
  have hlzlen : lba1z.length = ss := by
    rw [zeroCrcP_ok (by rw [hlen]; omega)] at hlz
    rcases hlz with ⟨⟩
    rw [zeroCrc_length, hlen]
  apply RRes.bind_ne_panic (by rw [sliceP_ok (by omega) (by rw [hlzlen]; omega)]; simp)
  intro region _
  apply RRes.ite_err_ne_panic
  rw [gptAfterCrc]
  apply RRes.bind_ne_panic (by rw [readU32P_ok (by rw [hlzlen]; omega)]; simp)
  intro res _
  apply RRes.ite_err_ne_panic
  apply RRes.bind_ne_panic (by rw [readU64P_ok (by rw [hlzlen]; omega)]; simp)
  intro cur _
  apply RRes.ite_err_ne_panic
  apply RRes.bind_ne_panic (by rw [readU64P_ok (by rw [hlzlen]; omega)]; simp)
  intro fu _
  apply RRes.bind_ne_panic (by rw [readU64P_ok (by rw [hlzlen]; omega)]; simp)
  intro lu _
  apply RRes.ite_err_ne_panic
  apply RRes.bind_ne_panic (by rw [sliceP_ok (by omega) (by rw [hlzlen]; omega)]; simp)
  intro guid _
  apply RRes.bind_ne_panic (by rw [readU64P_ok (by rw [hlzlen]; omega)]; simp)
  intro start_lba _
  apply RRes.ite_err_ne_panic
  apply RRes.bind_ne_panic (by rw [readU32P_ok (by rw [hlzlen]; omega)]; simp)
  intro entries _
  apply RRes.bind_ne_panic (by rw [readU32P_ok (by rw [hlzlen]; omega)]; simp)
  intro entry_size _
  by_cases hlt : entry_size < 128
  · rw [if_pos hlt]
    simp
  rw [if_neg hlt]
  rw [if_neg (by omega : ¬ ss = 0)]
  apply RRes.ite_err_ne_panic
  apply RRes.bind_ne_panic (by rw [sliceP_ok (by omega) (le_refl _)]; simp)
  intro tl _
  apply RRes.ite_err_ne_panic
  apply RRes.bind_ne_panic (readExactP_ne_panic file (ss + ss) (entry_size * entries))
  intro table htable
  obtain ⟨htval, htlen0⟩ := readExactP_ok_inv htable
  have htlen : table.length = entry_size * entries := by
    rw [htval, List.length_take, List.length_drop]
    omega
  exact gptLoop_ne_panic fu lu entry_size table (by omega) entries 0
    (by rw [Nat.zero_add, htlen, Nat.mul_comm entries entry_size])

/-- A header block with a valid signature and revision whose
`header_size` field reads 1000, exceeding the 512-byte sector. -/
def badHeaderBlock : List Nat :=
  gptSig ++ [0, 0, 1, 0] ++ u32le 1000 ++ List.replicate 496 0

/-- A 1024-byte source: protective boot sector, then `badHeaderBlock`. -/
def badFile : List Nat := protSector ++ badHeaderBlock

/-- C9 counterexample: with sector size 512 (the call-site value) and a
header whose `header_size` field exceeds 512, the slice taken for the
CRC computation is out of bounds and the decoder panics instead of
returning a `Result`. -/
theorem c9_totality_cex : gpt_from_file badFile 512 = .panic := by
  simp [gpt_from_file, gptAfterCrc, RRes.bind, readExactP, sliceP, readU32P, readU64P,
        zeroCrcP, zeroCrc, byte, readU32, readU64, all_zero, badFile, protSector, mkMbrSector,
        mkSlot, u32le, badHeaderBlock, zeroSlot, gptSig, List.replicate_succ]

theorem c9_no_panic_amended_witness :
    88 ≤ 92 ∧ readU32 ((miniGoodFile.drop 92).take 92) 0x0c ≤ 92 ∧
    gpt_from_file miniGoodFile 92 ≠ .panic :=
  ⟨by omega, by decide, c9_no_panic_amended miniGoodFile 92 (by omega) (by decide)⟩

/-!
## C3 — the header CRC gate
-/

/-- One CRC bit round keeps the state inside 32 bits. -/
theorem crcRound_lt {s : Nat} (h : s < 2 ^ 32) : crcRound s < 2 ^ 32 := by
  rw [crcRound]
  split
  · exact Nat.xor_lt_two_pow (by omega) (by norm_num)
  · omega

/-- On an odd state the round's result has bit 31 set (the reflected
polynomial's top bit), on an even state it does not. -/
theorem crcRound_top {s : Nat} (hs : s < 2 ^ 32) (ho : s % 2 = 1) :
    2 ^ 31 ≤ crcRound s := by
  rw [crcRound, if_pos ho]
  refine Nat.testBit_implies_ge ?_
  rw [Nat.testBit_xor, Nat.testBit_lt_two_pow (show s / 2 < 2 ^ 31 by omega),
      show (0xEDB88320 : Nat).testBit 31 = true from by decide]
  rfl

/-- One CRC bit round is injective on 32-bit states. -/
theorem crcRound_inj {s1 s2 : Nat} (h1 : s1 < 2 ^ 32) (h2 : s2 < 2 ^ 32)
    (h : crcRound s1 = crcRound s2) : s1 = s2 := by
  by_cases p1 : s1 % 2 = 1 <;> by_cases p2 : s2 % 2 = 1
  · rw [crcRound, if_pos p1, crcRound, if_pos p2] at h
    have hd : s1 / 2 = s2 / 2 := by
      have h2c := congrArg (fun x => x ^^^ 0xEDB88320) h
      simpa [Nat.xor_cancel_right] using h2c
    omega
  · exfalso
    have ha := crcRound_top h1 p1
    have hb : crcRound s2 < 2 ^ 31 := by
      rw [crcRound, if_neg p2]
      omega
    omega
  · exfalso
    have ha := crcRound_top h2 p2
    have hb : crcRound s1 < 2 ^ 31 := by
      rw [crcRound, if_neg p1]
      omega
    omega
  · rw [crcRound, if_neg p1, crcRound, if_neg p2] at h
    omega

/-- Eight rounds are injective on 32-bit states. -/
theorem crcRound8_inj {a b : Nat} (ha : a < 2 ^ 32) (hb : b < 2 ^ 32)
    (h : crcRound (crcRound (crcRound (crcRound (crcRound (crcRound (crcRound (crcRound a))))))) =
      crcRound (crcRound (crcRound (crcRound (crcRound (crcRound (crcRound (crcRound b)))))))) :
    a = b := by
  have a1 := crcRound_lt ha
  have a2 := crcRound_lt a1
  have a3 := crcRound_lt a2
  have a4 := crcRound_lt a3
  have a5 := crcRound_lt a4
  have a6 := crcRound_lt a5
  have a7 := crcRound_lt a6
  have b1 := crcRound_lt hb
  have b2 := crcRound_lt b1
  have b3 := crcRound_lt b2
  have b4 := crcRound_lt b3
  have b5 := crcRound_lt b4
  have b6 := crcRound_lt b5
  have b7 := crcRound_lt b6
  exact crcRound_inj ha hb (crcRound_inj a1 b1 (crcRound_inj a2 b2 (crcRound_inj a3 b3
    (crcRound_inj a4 b4 (crcRound_inj a5 b5 (crcRound_inj a6 b6 (crcRound_inj a7 b7 h)))))))

/-- The byte step keeps the state inside 32 bits. -/
theorem crcByteStep_lt {s b : Nat} (hs : s < 2 ^ 32) (hb : b < 2 ^ 32) :
    crcByteStep s b < 2 ^ 32 := by
  rw [crcByteStep]
  exact crcRound_lt (crcRound_lt (crcRound_lt (crcRound_lt (crcRound_lt (crcRound_lt
    (crcRound_lt (crcRound_lt (Nat.xor_lt_two_pow hs hb))))))))

/-- The byte step is injective in the state. -/
theorem crcByteStep_state_inj {s1 s2 b : Nat} (h1 : s1 < 2 ^ 32) (h2 : s2 < 2 ^ 32)
    (hb : b < 2 ^ 32) (h : crcByteStep s1 b = crcByteStep s2 b) : s1 = s2 := by
  rw [crcByteStep, crcByteStep] at h
  have hx := crcRound8_inj (Nat.xor_lt_two_pow h1 hb) (Nat.xor_lt_two_pow h2 hb) h
  have := congrArg (fun x => x ^^^ b) hx
  simpa [Nat.xor_cancel_right] using this

/-- The byte step separates distinct input bytes. -/
theorem crcByteStep_byte_inj {s b1 b2 : Nat} (hs : s < 2 ^ 32) (hb1 : b1 < 2 ^ 32)
    (hb2 : b2 < 2 ^ 32) (h : crcByteStep s b1 = crcByteStep s b2) : b1 = b2 := by
  rw [crcByteStep, crcByteStep] at h
  have hx := crcRound8_inj (Nat.xor_lt_two_pow hs hb1) (Nat.xor_lt_two_pow hs hb2) h
  have hc := congrArg (fun x => s ^^^ x) hx
  simpa [Nat.xor_cancel_left] using hc

/-- The state update keeps the state inside 32 bits for byte inputs. -/
theorem crcUpdate_lt {l : List Nat} :
    ∀ {s : Nat}, s < 2 ^ 32 → (∀ b ∈ l, b < 256) → crcUpdate s l < 2 ^ 32 := by
  induction l with
  | nil => intro s hs _; exact hs
  | cons b r ih =>
    intro s hs hl
    rw [show crcUpdate s (b :: r) = crcUpdate (crcByteStep s b) r from rfl]
    exact ih (crcByteStep_lt hs (by have := hl b (by simp); omega)) fun x hx => hl x (by simp [hx])

/-- The state update is injective in the initial state. -/
theorem crcUpdate_inj {l : List Nat} :
    ∀ {s1 s2 : Nat}, s1 < 2 ^ 32 → s2 < 2 ^ 32 → (∀ b ∈ l, b < 256) →
    crcUpdate s1 l = crcUpdate s2 l → s1 = s2 := by
  induction l with
  | nil => intro s1 s2 _ _ _ h; exact h
  | cons b r ih =>
    intro s1 s2 h1 h2 hl h
    rw [show crcUpdate s1 (b :: r) = crcUpdate (crcByteStep s1 b) r from rfl,
        show crcUpdate s2 (b :: r) = crcUpdate (crcByteStep s2 b) r from rfl] at h
    have hb : b < 2 ^ 32 := by have := hl b (by simp); omega
    exact crcByteStep_state_inj h1 h2 hb
      (ih (crcByteStep_lt h1 hb) (crcByteStep_lt h2 hb) (fun x hx => hl x (by simp [hx])) h)

/-- Changing exactly one byte of the input changes the CRC-32. -/
theorem checksum_flip_ne (l1 r : List Nat) (b b2 : Nat)
    (hall : ∀ x ∈ l1 ++ b :: r, x < 256) (hb2 : b2 < 256) (hne : b ≠ b2) :
    checksum_ieee (l1 ++ b :: r) ≠ checksum_ieee (l1 ++ b2 :: r) := by
  intro h
  rw [checksum_ieee, checksum_ieee] at h
  have h2 : crcUpdate 0xFFFFFFFF (l1 ++ b :: r) = crcUpdate 0xFFFFFFFF (l1 ++ b2 :: r) := by
    have hc := congrArg (fun x => x ^^^ 0xFFFFFFFF) h
    simpa [Nat.xor_cancel_right] using hc
  rw [crcUpdate_append, crcUpdate_append,
      show ∀ s : Nat, crcUpdate s (b :: r) = crcUpdate (crcByteStep s b) r from fun _ => rfl,
      show ∀ s : Nat, crcUpdate s (b2 :: r) = crcUpdate (crcByteStep s b2) r from fun _ => rfl] at h2
  have hl1 : ∀ x ∈ l1, x < 256 := fun x hx => hall x (by simp [hx])
  have hr : ∀ x ∈ r, x < 256 := fun x hx => hall x (by simp [hx])
  have hb : b < 256 := hall b (by simp)
  have hS : crcUpdate 0xFFFFFFFF l1 < 2 ^ 32 := crcUpdate_lt (by norm_num) hl1
  have hstep := crcUpdate_inj (crcByteStep_lt hS (by omega)) (crcByteStep_lt hS (by omega)) hr h2
  exact hne (crcByteStep_byte_inj hS (by omega) (by omega) hstep)

/-- The 512-byte (here `sector_size`-byte) header block the GPT decoder
reads at offset `sector_size`. -/
def headerBlock (file : List Nat) (sector_size : Nat) : List Nat :=
  (file.drop sector_size).take sector_size

/-- Every read of a byte-bounded list is below 256. -/
theorem byte_lt {l : List Nat} (h : ∀ b ∈ l, b < 256) (m : Nat) : byte l m < 256 := by
  rw [byte, List.getD_eq_getElem?_getD]
  rcases he : l[m]? with _ | x
  · simp
  · simpa using h x (List.getElem?_mem he)

/-- Reading through a drop shifts the index. -/
theorem byte_drop (l : List Nat) (n m : Nat) : byte (l.drop n) m = byte l (n + m) := by
  simp [byte, List.getD, List.getElem?_drop]

/-- Reading the set position gives the written value. -/
theorem byte_set_self {l : List Nat} {k : Nat} (h : k < l.length) (v : Nat) :
    byte (l.set k v) k = v := by
  simp [byte, List.getD, List.getElem?_set_self h]

/-- Reading any other position is unchanged by a set. -/
theorem byte_set_ne {k m : Nat} (l : List Nat) (v : Nat) (h : k ≠ m) :
    byte (l.set k v) m = byte l m := by
  simp [byte, List.getD, List.getElem?_set_ne h]

/-- A set outside a dropped-then-taken window leaves the window alone. -/
theorem take_drop_set_ne (l : List Nat) (a n j v : Nat) (h : ∀ k, k < n → a + k ≠ j) :
    ((l.set j v).drop a).take n = (l.drop a).take n := by
  apply List.ext_getElem?
  intro k
  simp only [List.getElem?_take, List.getElem?_drop]
  by_cases hk : k < n
  · rw [if_pos hk, if_pos hk, List.getElem?_set_ne (fun he => h k hk he.symm)]
  · rw [if_neg hk, if_neg hk]

/-- A set inside the taken prefix commutes with the take. -/
theorem take_set_comm (l : List Nat) (j v n : Nat) (h : j < n) :
    (l.set j v).take n = (l.take n).set j v := by
  apply List.ext_getElem?
  intro k
  simp only [List.getElem?_take, List.getElem?_set, List.length_take, List.length_set]
  split_ifs <;> first | rfl | omega

/-- An unsigned 32-bit read is unchanged by a set outside its window. -/
theorem readU32_set_ne (l : List Nat) (i j v : Nat) (h : ∀ k, k < 4 → i + k ≠ j) :
    readU32 (l.set j v) i = readU32 l i := by
  rw [readU32, readU32,
      byte_set_ne l v (fun he => h 0 (by omega) (by omega)),
      byte_set_ne l v (fun he => h 1 (by omega) (by omega)),
      byte_set_ne l v (fun he => h 2 (by omega) (by omega)),
      byte_set_ne l v (fun he => h 3 (by omega) (by omega))]

/-- An unsigned 32-bit read changes when one byte in its window changes
(base-256 positional uniqueness). -/
theorem readU32_set_within_ne (l : List Nat) (i j v : Nat) (hij : i ≤ j) (hj4 : j < i + 4)
    (hjl : j < l.length) (hb : ∀ b ∈ l, b < 256) (hne : v ≠ byte l j) :
    readU32 (l.set j v) i ≠ readU32 l i := by
  have b0 := byte_lt hb i
  have b1 := byte_lt hb (i + 1)
  have b2 := byte_lt hb (i + 2)
  have b3 := byte_lt hb (i + 3)
  rw [readU32, readU32]
  have hj : j = i ∨ j = i + 1 ∨ j = i + 2 ∨ j = i + 3 := by omega
  rcases hj with rfl | rfl | rfl | rfl
  · rw [byte_set_self hjl, byte_set_ne l v (by omega), byte_set_ne l v (by omega),
        byte_set_ne l v (by omega)]
    intro h
    exact hne (by omega)
  · rw [byte_set_self hjl, byte_set_ne l v (by omega), byte_set_ne l v (by omega),
        byte_set_ne l v (by omega)]
    intro h
    exact hne (by omega)
  · rw [byte_set_self hjl, byte_set_ne l v (by omega), byte_set_ne l v (by omega),
        byte_set_ne l v (by omega)]
    intro h
    exact hne (by omega)
  · rw [byte_set_self hjl, byte_set_ne l v (by omega), byte_set_ne l v (by omega),
        byte_set_ne l v (by omega)]
    intro h
    exact hne (by omega)

/-- A set inside the CRC field is erased by the zeroing. -/
theorem zeroCrc_set_crcfield (l : List Nat) (j v : Nat) (h16 : 16 ≤ j) (h20 : j < 20) :
    zeroCrc (l.set j v) = zeroCrc l := by
  apply List.ext_getElem?
  intro k
  simp only [zeroCrc, List.getElem?_set, List.length_set]
  split_ifs <;> first | rfl | omega

/-- A set outside the CRC field commutes with the zeroing. -/
theorem zeroCrc_set_ne (l : List Nat) (j v : Nat) (h : j < 16 ∨ 20 ≤ j) :
    zeroCrc (l.set j v) = (zeroCrc l).set j v := by
  apply List.ext_getElem?
  intro k
  simp only [zeroCrc, List.getElem?_set, List.length_set]
  split_ifs <;> first | rfl | omega

/-- Bytes outside the CRC field are unchanged by the zeroing. -/
theorem byte_zeroCrc_ne (l : List Nat) (j : Nat) (h : j < 16 ∨ 20 ≤ j) :
    byte (zeroCrc l) j = byte l j := by
  rw [zeroCrc, byte_set_ne _ _ (by omega), byte_set_ne _ _ (by omega),
      byte_set_ne _ _ (by omega), byte_set_ne _ _ (by omega)]

/-- The 32-bit reads of the zeroed block agree with the block outside
the CRC field. -/
theorem readU32_zeroCrc_ne (l : List Nat) (i : Nat) (h : i + 4 ≤ 16 ∨ 20 ≤ i) :
    readU32 (zeroCrc l) i = readU32 l i := by
  rw [readU32, readU32, byte_zeroCrc_ne _ _ (by omega), byte_zeroCrc_ne _ _ (by omega),
      byte_zeroCrc_ne _ _ (by omega), byte_zeroCrc_ne _ _ (by omega)]

/-- The zeroed block's bytes stay below 256. -/
theorem zeroCrc_bytes_lt {l : List Nat} (h : ∀ b ∈ l, b < 256) :
    ∀ b ∈ zeroCrc l, b < 256 := by
  intro b hb
  rcases List.mem_or_eq_of_mem_set hb with hb | rfl
  · rcases List.mem_or_eq_of_mem_set hb with hb | rfl
    · rcases List.mem_or_eq_of_mem_set hb with hb | rfl
      · rcases List.mem_or_eq_of_mem_set hb with hb | rfl
        · exact h b hb
        · omega
      · omega
    · omega
  · omega

/-- The header block's length when the source is long enough. -/
theorem headerBlock_length {file : List Nat} {ss : Nat} (h : ss + ss ≤ file.length) :
    (headerBlock file ss).length = ss := by
  rw [headerBlock, List.length_take, List.length_drop]
  omega

/-- Bytes of the header block are bytes of the file. -/
theorem byte_headerBlock {file : List Nat} {ss j : Nat} (hj : j < ss) :
    byte (headerBlock file ss) j = byte file (ss + j) := by
  rw [headerBlock, byte, List.getD_eq_getElem?_getD, List.getElem?_take, if_pos hj,
      List.getElem?_drop, byte, List.getD_eq_getElem?_getD]

/-- The header block's bytes stay below 256. -/
theorem headerBlock_bytes_lt {file : List Nat} {ss : Nat} (h : ∀ b ∈ file, b < 256) :
    ∀ b ∈ headerBlock file ss, b < 256 := fun b hb =>
  h b (List.mem_of_mem_drop (List.mem_of_mem_take hb))

/-- Setting one byte inside the header sector sets that byte of the
header block. -/
theorem headerBlock_set {file : List Nat} {ss j : Nat} (v : Nat) (hj : j < ss) :
    headerBlock (file.set (ss + j) v) ss = (headerBlock file ss).set j v := by
  apply List.ext_getElem?
  intro k
  simp only [headerBlock, List.getElem?_take, List.getElem?_drop, List.getElem?_set,
    List.length_take, List.length_drop, List.length_set]
  split_ifs <;> first | rfl | omega

/-- Overwriting one byte of a byte-bounded list with a different value
changes its CRC-32. -/
theorem checksum_set_ne (m : List Nat) (j v : Nat) (hj : j < m.length)
    (hall : ∀ x ∈ m, x < 256) (hv : v < 256) (hne : byte m j ≠ v) :
    checksum_ieee (m.set j v) ≠ checksum_ieee m := by
  have hm : m = m.take j ++ m[j] :: m.drop (j + 1) := by
    conv_lhs => rw [← List.take_append_drop j m]
    rw [List.drop_eq_getElem_cons hj]
  have hset : m.set j v = m.take j ++ v :: m.drop (j + 1) := by
    rw [List.set_eq_take_append_cons_drop, if_pos hj]
  have hbj : byte m j = m[j] := by
    rw [byte, List.getD_eq_getElem?_getD, List.getElem?_eq_getElem hj]
    rfl
  have hall2 : ∀ x ∈ m.take j ++ v :: m.drop (j + 1), x < 256 := by
    rw [← hset]
    exact fun x hx => (List.mem_or_eq_of_mem_set hx).elim (hall x) (fun he => he ▸ hv)
  have hb2 : m[j] < 256 := hbj ▸ byte_lt hall j
  have hne2 : v ≠ m[j] := fun he => hne (by rw [hbj, he])
  rw [hset]
  conv_rhs => rw [hm]
  exact checksum_flip_ne (m.take j) (m.drop (j + 1)) v m[j] hall2 hb2 hne2

/-- A bind avoids a given error when both components do. -/
theorem RRes.bind_ne_err {α β : Type} {x : RRes α} {f : α → RRes β} {e : String}
    (hx : x ≠ .err e) (hf : ∀ a, x = .ok a → f a ≠ .err e) : RRes.bind x f ≠ .err e := by
  cases x with
  | ok a => exact hf a rfl
  | err e2 => simpa [RRes.bind] using fun he => hx (by rw [he])
  | ioError => simp [RRes.bind]
  | panic => simp [RRes.bind]

/-- A gate raising a different error cannot raise this one. -/
theorem RRes.ite_err_ne_err {c : Prop} [Decidable c] {α : Type} {e1 e2 : String}
    {x : RRes α} (hne : e1 ≠ e2) (hx : x ≠ .err e2) :
    (if c then RRes.err e1 else x) ≠ RRes.err e2 := by
  by_cases hc : c
  · rw [if_pos hc]
    exact fun h => hne (RRes.err.inj h)
  · rwa [if_neg hc]

/-- A panicking gate cannot raise an error. -/
theorem RRes.ite_panic_ne_err {c : Prop} [Decidable c] {α : Type} {e : String}
    {x : RRes α} (hx : x ≠ .err e) : (if c then RRes.panic else x) ≠ RRes.err e := by
  by_cases hc : c
  · rw [if_pos hc]
    simp
  · rwa [if_neg hc]

/-- Slicing never raises an error string. -/
theorem sliceP_ne_err (l : List Nat) (a b : Nat) (e : String) : sliceP l a b ≠ .err e := by
  rw [sliceP]
  split <;> simp

/-- Checked 32-bit reads never raise an error string. -/
theorem readU32P_ne_err (l : List Nat) (i : Nat) (e : String) : readU32P l i ≠ .err e := by
  rw [readU32P]
  split <;> simp

/-- Checked 64-bit reads never raise an error string. -/
theorem readU64P_ne_err (l : List Nat) (i : Nat) (e : String) : readU64P l i ≠ .err e := by
  rw [readU64P]
  split <;> simp

/-- Byte-source reads never raise an error string. -/
theorem readExactP_ne_err (file : List Nat) (pos n : Nat) (e : String) :
    readExactP file pos n ≠ .err e := by
  rw [readExactP]
  split <;> simp

/-- The name-decode error is not the checksum error. -/
theorem nameErrMsg_ne_checksum (id : Nat) : nameErrMsg id ≠ "header checksum mismatch" := by
  intro h
  have hl := congrArg String.length h
  rw [nameErrMsg, String.length_append, String.length_append,
      show String.length "partition " = 10 from by decide,
      show String.length " has an invalid name: FromUtf16Error(())" = 40 from by decide,
      show String.length "header checksum mismatch" = 24 from by decide] at hl
  omega

/-- The entry-loop body never raises the header-checksum error. -/
theorem gptEntry_ne_err_checksum (fu lu id : Nat) (entry : List Nat) :
    gptEntry fu lu id entry ≠ .err "header checksum mismatch" := by
  rw [gptEntry]
  apply RRes.bind_ne_err (sliceP_ne_err _ _ _ _)
  intro tu _
  by_cases hz : all_zero tu = true
  · rw [if_pos hz]
    simp
  · rw [if_neg hz]
    apply RRes.bind_ne_err (sliceP_ne_err _ _ _ _)
    intro pu _
    apply RRes.bind_ne_err (readU64P_ne_err _ _ _)
    intro fl _
    apply RRes.bind_ne_err (readU64P_ne_err _ _ _)
    intro ll _
    apply RRes.ite_err_ne_err (by decide)
    apply RRes.bind_ne_err (sliceP_ne_err _ _ _ _)
    intro attr _
    apply RRes.bind_ne_err (sliceP_ne_err _ _ _ _)
    intro nd _
    dsimp only
    split
    · simp
    · exact fun h => nameErrMsg_ne_checksum id (RRes.err.inj h)

/-- The entry loop never raises the header-checksum error. -/
theorem gptLoop_ne_err_checksum (fu lu es : Nat) (table : List Nat) :
    ∀ (count i : Nat), gptLoop fu lu es table i count ≠ .err "header checksum mismatch" := by
  intro count
  induction count with
  | zero =>
    intro i
    rw [gptLoop]
    simp
  | succ count ih =>
    intro i
    rw [gptLoop]
    apply RRes.bind_ne_err (sliceP_ne_err _ _ _ _)
    intro entry _
    apply RRes.bind_ne_err (gptEntry_ne_err_checksum fu lu i entry)
    intro o _
    apply RRes.bind_ne_err (ih (i + 1))
    intro rest _
    cases o <;> simp

/-- No check after the CRC gate raises the header-checksum error. -/
theorem gptAfterCrc_ne_err_checksum (file : List Nat) (ss : Nat) (lz : List Nat) (hs : Nat) :
    gptAfterCrc file ss lz hs ≠ .err "header checksum mismatch" := by
  rw [gptAfterCrc]
  apply RRes.bind_ne_err (readU32P_ne_err _ _ _)
  intro res _
  apply RRes.ite_err_ne_err (by decide)
  apply RRes.bind_ne_err (readU64P_ne_err _ _ _)
  intro cur _
  apply RRes.ite_err_ne_err (by decide)
  apply RRes.bind_ne_err (readU64P_ne_err _ _ _)
  intro fu _
  apply RRes.bind_ne_err (readU64P_ne_err _ _ _)
  intro lu _
  apply RRes.ite_err_ne_err (by decide)
  apply RRes.bind_ne_err (sliceP_ne_err _ _ _ _)
  intro guid _
  apply RRes.bind_ne_err (readU64P_ne_err _ _ _)
  intro sl _
  apply RRes.ite_err_ne_err (by decide)
  apply RRes.bind_ne_err (readU32P_ne_err _ _ _)
  intro entries _
  apply RRes.bind_ne_err (readU32P_ne_err _ _ _)
  intro es _
  apply RRes.ite_err_ne_err (by decide)
  apply RRes.ite_panic_ne_err
  apply RRes.ite_err_ne_err (by decide)
  apply RRes.bind_ne_err (sliceP_ne_err _ _ _ _)
  intro tl _
  apply RRes.ite_err_ne_err (by decide)
  apply RRes.bind_ne_err (readExactP_ne_err _ _ _ _)
  intro table _
  exact gptLoop_ne_err_checksum fu lu es table entries 0

/-- Reduction of the GPT decoder when the boot-signature gate fails. -/
theorem gpt_err_sig {file : List Nat} {ss : Nat} (hss : 88 ≤ ss)
    (hflen : ss + ss ≤ file.length)
    (hsig : (headerBlock file ss).take 8 ≠ gptSig) :
    gpt_from_file file ss = .err "bad EFI signature" := by
  have hBlen := headerBlock_length hflen
  rw [gpt_from_file,
      RRes.bind_of_ok _ (show readExactP file ss ss = .ok (headerBlock file ss) from by
        rw [readExactP, if_pos hflen]; rfl),
      RRes.bind_of_ok _ (sliceP_ok (by omega) (by omega)),
      show (8 : Nat) - 0 = 8 from rfl, List.drop_zero,
      if_pos (by simpa [gptSig] using hsig)]

/-- Reduction of the GPT decoder when the revision gate fails. -/
theorem gpt_err_rev {file : List Nat} {ss : Nat} (hss : 88 ≤ ss)
    (hflen : ss + ss ≤ file.length)
    (hsig : (headerBlock file ss).take 8 = gptSig)
    (hrev : ((headerBlock file ss).drop 8).take 4 ≠ [0, 0, 1, 0]) :
    gpt_from_file file ss = .err "unsupported revision" := by
  have hBlen := headerBlock_length hflen
  rw [gpt_from_file,
      RRes.bind_of_ok _ (show readExactP file ss ss = .ok (headerBlock file ss) from by
        rw [readExactP, if_pos hflen]; rfl),
      RRes.bind_of_ok _ (sliceP_ok (by omega) (by omega)),
      show (8 : Nat) - 0 = 8 from rfl, List.drop_zero, hsig,
      if_neg (by simp [gptSig]),
      RRes.bind_of_ok _ (sliceP_ok (by omega) (by omega)),
      show (12 : Nat) - 8 = 4 from rfl,
      if_pos hrev]

/-- Reduction of the GPT decoder through the signature, revision and
header-size gates, up to the CRC gate, when all of them pass. -/
theorem gpt_to_crc_gate {file : List Nat} {ss : Nat} (hflen : ss + ss ≤ file.length)
    (hsig : (headerBlock file ss).take 8 = gptSig)
    (hrev : ((headerBlock file ss).drop 8).take 4 = [0, 0, 1, 0])
    (hhs1 : 92 ≤ readU32 (headerBlock file ss) 0x0c)
    (hhs2 : readU32 (headerBlock file ss) 0x0c ≤ ss) :
    gpt_from_file file ss =
      if readU32 (headerBlock file ss) 0x10 ≠
          checksum_ieee ((zeroCrc (headerBlock file ss)).take
            (readU32 (headerBlock file ss) 0x0c)) then
        .err "header checksum mismatch"
      else
        gptAfterCrc file ss (zeroCrc (headerBlock file ss))
          (readU32 (headerBlock file ss) 0x0c) := by
  have hBlen := headerBlock_length hflen
  rw [gpt_from_file,
      RRes.bind_of_ok _ (show readExactP file ss ss = .ok (headerBlock file ss) from by
        rw [readExactP, if_pos hflen]; rfl),
      RRes.bind_of_ok _ (sliceP_ok (by omega) (by omega)),
      show (8 : Nat) - 0 = 8 from rfl, List.drop_zero, hsig,
      if_neg (by simp [gptSig]),
      RRes.bind_of_ok _ (sliceP_ok (by omega) (by omega)),
      show (12 : Nat) - 8 = 4 from rfl, hrev,
      if_neg (by simp),
      RRes.bind_of_ok _ (readU32P_ok (by omega)),
      if_neg (by omega),
      RRes.bind_of_ok _ (readU32P_ok (by omega)),
      RRes.bind_of_ok _ (zeroCrcP_ok (by omega)),
      RRes.bind_of_ok _ (sliceP_ok (Nat.zero_le _) (by rw [zeroCrc_length]; omega)),
      Nat.sub_zero, List.drop_zero]

/-- Flipping one bit changes a number. -/
theorem xor_pow_ne (x i : Nat) : x ^^^ 2 ^ i ≠ x := by
  intro h
  have h2 : x ^^^ (x ^^^ 2 ^ i) = x ^^^ x := congrArg (fun y => x ^^^ y) h
  rw [Nat.xor_cancel_left, Nat.xor_self] at h2
  exact (Nat.two_pow_pos i).ne' h2

/-- C3 (amended): for a header block passing the signature, revision and
header-size gates, with `header_size ≤ sector_size` (no gate enforces
this; without it the decoder panics — see the counterexample), the
decode fails with the header-checksum error exactly when the CRC-32 of
the first `header_size` bytes of the CRC-zeroed block differs from the
stored `header_crc`; and when the stored CRC matches, every single-bit
corruption in the covered region outside the `header_size` field
(bytes 0x0C–0x0F) makes the decode fail. -/
theorem c3_crc_gate :
    ∀ (file : List Nat) (ss : Nat), 88 ≤ ss → ss + ss ≤ file.length →
    (headerBlock file ss).take 8 = gptSig →
    ((headerBlock file ss).drop 8).take 4 = [0, 0, 1, 0] →
    92 ≤ readU32 (headerBlock file ss) 0x0c →
    readU32 (headerBlock file ss) 0x0c ≤ ss →
    (∀ b ∈ file, b < 256) →
    ((gpt_from_file file ss = .err "header checksum mismatch" ↔
      readU32 (headerBlock file ss) 0x10 ≠
        checksum_ieee ((zeroCrc (headerBlock file ss)).take
          (readU32 (headerBlock file ss) 0x0c))) ∧
     (readU32 (headerBlock file ss) 0x10 =
        checksum_ieee ((zeroCrc (headerBlock file ss)).take
          (readU32 (headerBlock file ss) 0x0c)) →
      ∀ j i, j < readU32 (headerBlock file ss) 0x0c → i < 8 → (j < 0x0c ∨ 0x10 ≤ j) →
      ∃ e, gpt_from_file (file.set (ss + j) (byte file (ss + j) ^^^ 2 ^ i)) ss = .err e)) := by
  intro file ss hss hflen hsig hrev hhs1 hhs2 hbytes
  have hBlen := headerBlock_length hflen
  have hbB := @headerBlock_bytes_lt file ss hbytes
  constructor
  · rw [gpt_to_crc_gate hflen hsig hrev hhs1 hhs2]
    constructor
    · intro h
      by_contra hc
      rw [if_neg (not_ne_iff.mpr hc)] at h
      exact gptAfterCrc_ne_err_checksum _ _ _ _ h
    · intro h
      rw [if_pos h]
  · intro hmatch j i hj hi hregion
    have hjss : j < ss := by omega
    have hflen2 : ss + ss ≤ (file.set (ss + j) (byte file (ss + j) ^^^ 2 ^ i)).length := by
      rw [List.length_set]
      exact hflen
    have hB2 := @headerBlock_set file ss j (byte file (ss + j) ^^^ 2 ^ i) hjss
    have hv0 : byte (headerBlock file ss) j = byte file (ss + j) := byte_headerBlock hjss
    have hvne : byte file (ss + j) ^^^ 2 ^ i ≠ byte (headerBlock file ss) j := by
      rw [hv0]
      exact xor_pow_ne _ i
    have hvlt : byte file (ss + j) ^^^ 2 ^ i < 256 := by
      have h1 : byte file (ss + j) < 2 ^ 8 := byte_lt hbytes _
      have h2 : (2 : Nat) ^ i < 2 ^ 8 := Nat.pow_lt_pow_right (by omega) (by omega)
      exact Nat.xor_lt_two_pow h1 h2
    rcases (by omega : j < 8 ∨ (8 ≤ j ∧ j < 12) ∨ (16 ≤ j ∧ j < 20) ∨ 20 ≤ j) with
      hcase | hcase | hcase | hcase
    · -- corruption inside the signature
      refine ⟨"bad EFI signature", gpt_err_sig hss hflen2 ?_⟩
      rw [hB2]
      intro hEq
      have h1 : byte (((headerBlock file ss).set j (byte file (ss + j) ^^^ 2 ^ i)).take 8) j =
          byte gptSig j := by rw [hEq]
      rw [byte_take _ _ _ (by omega), byte_set_self (by omega)] at h1
      have h2 : byte ((headerBlock file ss).take 8) j = byte gptSig j := by rw [hsig]
      rw [byte_take _ _ _ (by omega)] at h2
      exact hvne (by rw [h1, ← h2])
    · -- corruption inside the revision field
      have hsig2 : (((headerBlock file ss).set j (byte file (ss + j) ^^^ 2 ^ i)).take 8) =
          (headerBlock file ss).take 8 := by
        have h := take_drop_set_ne (headerBlock file ss) 0 8 j (byte file (ss + j) ^^^ 2 ^ i)
          (fun k hk => by omega)
        rwa [List.drop_zero, List.drop_zero] at h
      refine ⟨"unsupported revision", gpt_err_rev hss hflen2 (by rw [hB2, hsig2, hsig]) ?_⟩
      rw [hB2]
      intro hEq
      have h1 : byte ((((headerBlock file ss).set j (byte file (ss + j) ^^^ 2 ^ i)).drop 8).take 4)
          (j - 8) = byte [0, 0, 1, 0] (j - 8) := by rw [hEq]
      rw [byte_take _ _ _ (by omega), byte_drop, show 8 + (j - 8) = j from by omega,
          byte_set_self (by omega)] at h1
      have h2 : byte (((headerBlock file ss).drop 8).take 4) (j - 8) = byte [0, 0, 1, 0] (j - 8) := by
        rw [hrev]
      rw [byte_take _ _ _ (by omega), byte_drop, show 8 + (j - 8) = j from by omega] at h2
      exact hvne (by rw [h1, ← h2])
    · -- corruption inside the stored CRC field
      have hsig2 : (((headerBlock file ss).set j (byte file (ss + j) ^^^ 2 ^ i)).take 8) =
          (headerBlock file ss).take 8 := by
        have h := take_drop_set_ne (headerBlock file ss) 0 8 j (byte file (ss + j) ^^^ 2 ^ i)
          (fun k hk => by omega)
        rwa [List.drop_zero, List.drop_zero] at h
      have hrev2 : ((((headerBlock file ss).set j (byte file (ss + j) ^^^ 2 ^ i)).drop 8).take 4) =
          (((headerBlock file ss)).drop 8).take 4 :=
        take_drop_set_ne (headerBlock file ss) 8 4 j _ (fun k hk => by omega)
      have hhsEq : readU32 ((headerBlock file ss).set j (byte file (ss + j) ^^^ 2 ^ i)) 0x0c =
          readU32 (headerBlock file ss) 0x0c :=
        readU32_set_ne _ _ _ _ (fun k hk => by omega)
      refine ⟨"header checksum mismatch", ?_⟩
      rw [gpt_to_crc_gate hflen2 (by rw [hB2, hsig2, hsig]) (by rw [hB2, hrev2, hrev])
            (by rw [hB2, hhsEq]; exact hhs1) (by rw [hB2, hhsEq]; exact hhs2),
          hB2, hhsEq, zeroCrc_set_crcfield _ _ _ (by omega) (by omega),
          if_pos ?_]
      rw [← hmatch]
      exact fun hEq => (readU32_set_within_ne (headerBlock file ss) 0x10 j _ (by omega) (by omega)
        (by omega) hbB hvne) hEq
    · -- corruption in the CRC-covered region after the CRC field
      have hsig2 : (((headerBlock file ss).set j (byte file (ss + j) ^^^ 2 ^ i)).take 8) =
          (headerBlock file ss).take 8 := by
        have h := take_drop_set_ne (headerBlock file ss) 0 8 j (byte file (ss + j) ^^^ 2 ^ i)
          (fun k hk => by omega)
        rwa [List.drop_zero, List.drop_zero] at h
      have hrev2 : ((((headerBlock file ss).set j (byte file (ss + j) ^^^ 2 ^ i)).drop 8).take 4) =
          (((headerBlock file ss)).drop 8).take 4 :=
        take_drop_set_ne (headerBlock file ss) 8 4 j _ (fun k hk => by omega)
      have hhsEq : readU32 ((headerBlock file ss).set j (byte file (ss + j) ^^^ 2 ^ i)) 0x0c =
          readU32 (headerBlock file ss) 0x0c :=
        readU32_set_ne _ _ _ _ (fun k hk => by omega)
      have hstEq : readU32 ((headerBlock file ss).set j (byte file (ss + j) ^^^ 2 ^ i)) 0x10 =
          readU32 (headerBlock file ss) 0x10 :=
        readU32_set_ne _ _ _ _ (fun k hk => by omega)
      refine ⟨"header checksum mismatch", ?_⟩
      rw [gpt_to_crc_gate hflen2 (by rw [hB2, hsig2, hsig]) (by rw [hB2, hrev2, hrev])
            (by rw [hB2, hhsEq]; exact hhs1) (by rw [hB2, hhsEq]; exact hhs2),
          hB2, hhsEq, hstEq,
          zeroCrc_set_ne _ _ _ (by omega),
          take_set_comm _ _ _ _ hj,
          if_pos ?_]
      rw [hmatch]
      refine (checksum_set_ne _ j _ ?_ ?_ ?_ ?_).symm
      · rw [List.length_take, zeroCrc_length, hBlen]
        omega
      · exact fun x hx => zeroCrc_bytes_lt hbB x (List.mem_of_mem_take hx)
      · exact hvlt
      · rw [byte_take _ _ _ hj, byte_zeroCrc_ne _ _ (by omega), hv0]
        exact fun hEq => hvne (by rw [hv0]; exact hEq.symm)

/-- A 96-byte header block with valid signature and revision whose
`header_size` field reads 100, exceeding the 96-byte sector size. -/
def miniBadBlock : List Nat := gptSig ++ [0, 0, 1, 0] ++ u32le 100 ++ List.replicate 80 0

/-- A 192-byte source for sector size 96 built from `miniBadBlock`. -/
def miniBadFile : List Nat := List.replicate 96 7 ++ miniBadBlock

/-- CRC-32 of `miniBadBlock`, computed in three chunks. -/
theorem crc_miniBadBlock : checksum_ieee miniBadBlock = 1816368848 := by
  rw [checksum_ieee,
      show miniBadBlock = miniBadBlock.take 32 ++
        ((miniBadBlock.drop 32).take 32 ++ miniBadBlock.drop 64) from by decide,
      crcUpdate_append, crcUpdate_append,
      show crcUpdate 0xFFFFFFFF (miniBadBlock.take 32) = 1597279041 from by decide,
      show crcUpdate 1597279041 ((miniBadBlock.drop 32).take 32) = 854329242 from by decide,
      show crcUpdate 854329242 (miniBadBlock.drop 64) = 2478598447 from by decide]
  decide

/-- C3 counterexample: a header block that passes the signature,
revision and header-size gates, with the stored CRC (0) differing from
the computed CRC, on which the decoder panics (out-of-bounds slice,
since `header_size` = 100 exceeds the 96-byte sector) instead of
failing with the checksum error — so the claimed equivalence fails. -/
theorem c3_crc_gate_cex :
    (headerBlock miniBadFile 96).take 8 = gptSig ∧
    ((headerBlock miniBadFile 96).drop 8).take 4 = [0, 0, 1, 0] ∧
    92 ≤ readU32 (headerBlock miniBadFile 96) 0x0c ∧
    gpt_from_file miniBadFile 96 = .panic ∧
    ¬ (gpt_from_file miniBadFile 96 = .err "header checksum mismatch" ↔
       readU32 (headerBlock miniBadFile 96) 0x10 ≠
         checksum_ieee ((zeroCrc (headerBlock miniBadFile 96)).take
           (readU32 (headerBlock miniBadFile 96) 0x0c))) := by
  refine ⟨by decide, by decide, by decide, by decide, ?_⟩
  intro hiff
  have hrhs : readU32 (headerBlock miniBadFile 96) 0x10 ≠
      checksum_ieee ((zeroCrc (headerBlock miniBadFile 96)).take
        (readU32 (headerBlock miniBadFile 96) 0x0c)) := by
    rw [show (zeroCrc (headerBlock miniBadFile 96)).take
          (readU32 (headerBlock miniBadFile 96) 0x0c) = miniBadBlock from by decide,
        crc_miniBadBlock]
    decide
  have hpanic : gpt_from_file miniBadFile 96 = .panic := by decide
  have := hiff.mpr hrhs
  rw [hpanic] at this
  exact RRes.noConfusion this

theorem c3_crc_gate_witness :
    92 + 92 ≤ miniGoodFile.length ∧
    (headerBlock miniGoodFile 92).take 8 = gptSig ∧
    (∀ b ∈ miniGoodFile, b < 256) ∧
    ((gpt_from_file miniGoodFile 92 = .err "header checksum mismatch" ↔
      readU32 (headerBlock miniGoodFile 92) 0x10 ≠
        checksum_ieee ((zeroCrc (headerBlock miniGoodFile 92)).take
          (readU32 (headerBlock miniGoodFile 92) 0x0c))) ∧
     (readU32 (headerBlock miniGoodFile 92) 0x10 =
        checksum_ieee ((zeroCrc (headerBlock miniGoodFile 92)).take
          (readU32 (headerBlock miniGoodFile 92) 0x0c)) →
      ∀ j i, j < readU32 (headerBlock miniGoodFile 92) 0x0c → i < 8 → (j < 0x0c ∨ 0x10 ≤ j) →
      ∃ e, gpt_from_file (miniGoodFile.set (92 + j) (byte miniGoodFile (92 + j) ^^^ 2 ^ i)) 92 =
        .err e)) :=
  ⟨by decide, by decide, by decide,
    c3_crc_gate miniGoodFile 92 (by omega) (by decide) (by decide) (by decide) (by decide)
      (by decide) (by decide)⟩
